import Mathlib

/-!
Verification of the snap-to-grid container engine of the node-editor
repository: a shallow embedding of `src/windows/node/date_grid_node.py`
(class `DateGridNode`: `handle_node_moved`, `_is_in_snap_area`,
`_layout_snapped_nodes`) and of `src/windows/node/base_nodes.py`
(`ToolBaseNode.set_pos`), together with proofs and refutations of the
specification's claims about them.

Modelling conventions:
* Geometry is rational (`ℚ`); the Python code uses floats but performs only
  additions, halving and comparisons on small literals, all exact.
* A node is a record; the `snap_nodes` property of a grid node is the
  `snapIds` field; `view.height` is the `viewH` field; the ad hoc Python
  attribute `_kdm_snapping` (read with default `False` in
  `ToolBaseNode.set_pos` and assigned nowhere in the repository) is the
  `kdmSnapping` field.
* A graph is the ordered list of its nodes (the enumeration order of
  `graph.all_nodes()`); Python object identity is modelled by node-id
  lookup, which coincides with it on graphs whose node ids are distinct.
* Python exceptions are modelled by returning the state at the moment the
  exception escapes together with `some` error.  `ToolBaseNode.set_pos`
  calls `DateGridNode.on_node_moved(graph, self)` after repositioning; the
  class defines `handle_node_moved` and no `on_node_moved` attribute exists
  anywhere in its hierarchy, so that call raises `AttributeError`.
-/

namespace SnapGrid

/-- Height of the snap area at the top of a grid node (`SNAP_AREA_HEIGHT`). -/
def SNAP_AREA_HEIGHT : ℚ := 40

/-- Minimum height of a grid node (`MIN_HEIGHT`). -/
def MIN_HEIGHT : ℚ := 120

/-- Vertical spacing between stacked members (`V_SPACING`). -/
def V_SPACING : ℚ := 10

/-- Left margin used when placing members (`H_MARGIN`). -/
def H_MARGIN : ℚ := 10

/-- Kind of a node in the graph: `plain` is a node that is not a
`ToolBaseNode` (for example a raw library node), `tool` is a
`ToolBaseNode` that is not a `DateGridNode`, `grid` is a `DateGridNode`. -/
inductive NodeKind
  | plain
  | tool
  | grid
deriving DecidableEq

/-- A node of the graph.  `nid` is the node id, `x`/`y` the position,
`w`/`h` the `width`/`height` properties, `viewH` the `view.height`
attribute read by the layout pass, `snapIds` the `snap_nodes` property
(meaningful on grid nodes), `kdmSnapping` the `_kdm_snapping` attribute. -/
structure GNode where
  nid : Nat
  kind : NodeKind
  x : ℚ
  y : ℚ
  w : ℚ
  h : ℚ
  viewH : ℚ
  snapIds : List Nat
  kdmSnapping : Bool
deriving DecidableEq

/-- The graph: the ordered list of live nodes (`graph.all_nodes()`). -/
structure GraphState where
  nodes : List GNode
deriving DecidableEq

/-- The one exception the engine actually raises: the `AttributeError`
produced by the call `DateGridNode.on_node_moved(graph, self)` in
`ToolBaseNode.set_pos`, since no such attribute is defined. -/
inductive Err
  | attributeError
deriving DecidableEq

/-- `graph.get_node_by_id`: first node with the given id. -/
def getNodeById (s : GraphState) (i : Nat) : Option GNode :=
  s.nodes.find? fun n => n.nid == i

/-- Mutate the node with id `i` in place (Python mutates the object; with
distinct ids this is the same). -/
def updateNode (s : GraphState) (i : Nat) (f : GNode → GNode) : GraphState :=
  ⟨s.nodes.map fun n => if n.nid == i then f n else n⟩

/-- `ToolBaseNode.set_pos(x, y)`: first `super().set_pos` repositions the
node, then unless `_kdm_snapping` is truthy the method evaluates
`DateGridNode.on_node_moved`, an attribute that does not exist, raising
`AttributeError`.  (The `if not graph` guard never fires for a node that
lives in the graph, which is the only way this model reaches it.) -/
def set_pos (s : GraphState) (i : Nat) (px py : ℚ) : GraphState × Option Err :=
  let s1 := updateNode s i fun n => { n with x := px, y := py }
  match getNodeById s1 i with
  | none => (s1, none)
  | some n => if n.kdmSnapping then (s1, none) else (s1, some Err.attributeError)

/-- `DateGridNode._is_in_snap_area(node)`: the tested point is
`(node.x + grid.w / 2, node.y + 30)` — note that its x coordinate uses the
width of the grid being tested, not the node's own width. -/
def is_in_snap_area (dn : GNode) (n : GNode) : Bool :=
  let cx := n.x + dn.w / 2
  let cy := n.y + 30
  decide (dn.x ≤ cx) && decide (cx ≤ dn.x + dn.w) &&
    decide (dn.y ≤ cy) && decide (cy ≤ dn.y + SNAP_AREA_HEIGHT)

/-- The live-member extraction of `_layout_snapped_nodes`: ids are kept
when they resolve to an existing node that is a `ToolBaseNode` and not a
`DateGridNode`. -/
def live_members (s : GraphState) (ids : List Nat) : List GNode :=
  ids.filterMap fun nid =>
    match getNodeById s nid with
    | none => none
    | some n =>
      match n.kind with
      | NodeKind.tool => some n
      | _ => none

/-- Stable insertion into a list sorted by ascending `y` (a later-arriving
node goes after the nodes already present with the same `y`). -/
def insertByY (x : GNode) : List GNode → List GNode
  | [] => [x]
  | y :: ys => if y.y ≤ x.y then y :: insertByY x ys else x :: y :: ys

/-- `nodes.sort(key=lambda n: n.pos()[1])`: Python's sort is stable;
inserting the elements in their original order into an accumulator keeps
equal keys in original order. -/
def sortByY (l : List GNode) : List GNode :=
  l.foldl (fun acc n => insertByY n acc) []

/-- The member-placement loop of `_layout_snapped_nodes`: for each member
set its width to `base_width - 2 * H_MARGIN`, reposition it with
`set_pos`, and advance the cursor by `view.height + V_SPACING`; an
exception from `set_pos` escapes immediately.  Returns the state, the
running `max_bottom`, and the escaping error if any. -/
def layout_loop (gx baseW : ℚ) :
    List GNode → GraphState → ℚ → ℚ → GraphState × ℚ × Option Err
  | [], s, _cy, maxB => (s, maxB, none)
  | n :: rest, s, cy, maxB =>
    let s1 := updateNode s n.nid fun m => { m with w := baseW - H_MARGIN * 2 }
    let r := set_pos s1 n.nid (gx + H_MARGIN) cy
    match r.2 with
    | some e => (r.1, maxB, some e)
    | none =>
      let cy2 := cy + n.viewH + V_SPACING
      layout_loop gx baseW rest r.1 cy2 (max maxB cy2)

/-- `DateGridNode._layout_snapped_nodes()`.  With an empty `snap_nodes`
list the height is reset to `MIN_HEIGHT`; when no stored id resolves to a
live member the list is cleared; otherwise the live members are sorted by
current y, the grid width is set to the first sorted member's width, the
members are stacked by `layout_loop`, and finally the height is updated —
unless the loop escaped with an exception, which propagates.  (The branch
on `sortByY` mirrors the Python emptiness test on the unsorted list:
sorting preserves emptiness.) -/
def layout_snapped_nodes (s : GraphState) (gid : Nat) : GraphState × Option Err :=
  match getNodeById s gid with
  | none => (s, none)
  | some g =>
    if g.snapIds.isEmpty then
      (updateNode s gid fun n => { n with h := MIN_HEIGHT }, none)
    else
      match sortByY (live_members s g.snapIds) with
      | [] => (updateNode s gid fun n => { n with snapIds := [] }, none)
      | n0 :: rest =>
        let baseW := n0.w
        let s1 := updateNode s gid fun n => { n with w := baseW }
        let startY := g.y + SNAP_AREA_HEIGHT + V_SPACING
        let r := layout_loop g.x baseW (n0 :: rest) s1 startY startY
        match r.2.2 with
        | some e => (r.1, some e)
        | none =>
          let newH := max MIN_HEIGHT (r.2.1 - g.y + V_SPACING)
          (updateNode r.1 gid fun n => { n with h := newH }, none)

/-- All `DateGridNode`s of the graph, in enumeration order. -/
def grids_of (s : GraphState) : List GNode :=
  s.nodes.filter fun n => decide (n.kind = NodeKind.grid)

/-- The `target_parent` loop of `handle_node_moved`: the first grid, in
enumeration order, whose snap area contains the moved node's tested
point. -/
def target_owner (s : GraphState) (moved : GNode) : Option GNode :=
  (grids_of s).find? fun dn => is_in_snap_area dn moved

/-- The `current_parent` loop of `handle_node_moved`: the first grid whose
`snap_nodes` list contains the moved node's id. -/
def current_owner (s : GraphState) (movedId : Nat) : Option GNode :=
  (grids_of s).find? fun dn => dn.snapIds.contains movedId

/-- `DateGridNode.handle_node_moved(graph, moved_node)`.  A missing graph
or node is a no-op; a moved grid only re-lays itself out; a non-tool node
is ignored; otherwise the current and target owners are resolved and the
membership lists updated, re-laying out each touched grid.  Exceptions
from the re-layouts propagate. -/
def handle_node_moved (s : GraphState) (movedId : Nat) : GraphState × Option Err :=
  match getNodeById s movedId with
  | none => (s, none)
  | some moved =>
    if (grids_of s).isEmpty then (s, none)
    else
      match moved.kind with
      | NodeKind.grid => layout_snapped_nodes s movedId
      | NodeKind.plain => (s, none)
      | NodeKind.tool =>
        let cur := current_owner s movedId
        match target_owner s moved with
        | none =>
          match cur with
          | none => (s, none)
          | some cp =>
            let s1 := updateNode s cp.nid fun n =>
              { n with snapIds := n.snapIds.erase movedId }
            layout_snapped_nodes s1 cp.nid
        | some tp =>
          let step1 : GraphState × Option Err :=
            match cur with
            | some cp =>
              if cp.nid = tp.nid then (s, none)
              else
                let s1 := updateNode s cp.nid fun n =>
                  { n with snapIds := n.snapIds.erase movedId }
                layout_snapped_nodes s1 cp.nid
            | none => (s, none)
          match step1.2 with
          | some e => (step1.1, some e)
          | none =>
            let s3 := updateNode step1.1 tp.nid fun n =>
              if n.snapIds.contains movedId then n
              else { n with snapIds := n.snapIds ++ [movedId] }
            layout_snapped_nodes s3 tp.nid

/-! ### Generic helpers: lookups, updates, and the shape of state changes.
Every state change performed by the engine maps the node list pointwise,
so each operation's result is `s.nodes.map φ` for a `φ` that preserves the
node id and kind; the lemmas below make that precise and transport lookups
and invariants across such maps. -/

theorem getNodeById_nid {s : GraphState} {i : Nat} {n : GNode}
    (h : getNodeById s i = some n) : n.nid = i := by
  have h2 := List.find?_some h
  simpa using h2

theorem getNodeById_mem {s : GraphState} {i : Nat} {n : GNode}
    (h : getNodeById s i = some n) : n ∈ s.nodes :=
  List.mem_of_find?_eq_some h

theorem updateNode_nodes (s : GraphState) (i : Nat) (f : GNode → GNode) :
    (updateNode s i f).nodes = s.nodes.map fun n => if n.nid == i then f n else n := rfl

theorem getNodeById_of_map (s : GraphState) (φ : GNode → GNode)
    (hφ : ∀ n, (φ n).nid = n.nid) (i : Nat) :
    getNodeById ⟨s.nodes.map φ⟩ i = (getNodeById s i).map φ := by
  unfold getNodeById
  rw [List.find?_map]
  have hp : ((fun n : GNode => n.nid == i) ∘ φ) = fun n : GNode => n.nid == i := by
    funext n
    simp [Function.comp, hφ n]
  rw [hp]

/-- A pointwise node change that touches only the geometry fields `x`, `y`,
`w` (what `layout_loop` and `set_pos` do). -/
def GeomMap (φ : GNode → GNode) : Prop :=
  ∀ n, (φ n).nid = n.nid ∧ (φ n).kind = n.kind ∧ (φ n).snapIds = n.snapIds ∧
    (φ n).h = n.h ∧ (φ n).viewH = n.viewH ∧ (φ n).kdmSnapping = n.kdmSnapping

/-- A pointwise node change as performed by a whole layout pass: geometry
and height may change, and a `snap_nodes` list is either kept exactly or
reset to the empty list — never rewritten to anything else. -/
def LayoutMap (φ : GNode → GNode) : Prop :=
  ∀ n, (φ n).nid = n.nid ∧ (φ n).kind = n.kind ∧ (φ n).viewH = n.viewH ∧
    (φ n).kdmSnapping = n.kdmSnapping ∧
    ((φ n).snapIds = n.snapIds ∨ (φ n).snapIds = [])

theorem geomMap_id : GeomMap id := fun _ => ⟨rfl, rfl, rfl, rfl, rfl, rfl⟩

theorem geomMap_comp {φ ψ : GNode → GNode} (hφ : GeomMap φ) (hψ : GeomMap ψ) :
    GeomMap (φ ∘ ψ) := by
  intro n
  obtain ⟨a1, a2, a3, a4, a5, a6⟩ := hψ n
  obtain ⟨b1, b2, b3, b4, b5, b6⟩ := hφ (ψ n)
  exact ⟨by rw [Function.comp_apply, b1, a1], by rw [Function.comp_apply, b2, a2],
    by rw [Function.comp_apply, b3, a3], by rw [Function.comp_apply, b4, a4],
    by rw [Function.comp_apply, b5, a5], by rw [Function.comp_apply, b6, a6]⟩

theorem GeomMap.layoutMap {φ : GNode → GNode} (h : GeomMap φ) : LayoutMap φ := by
  intro n
  obtain ⟨a1, a2, a3, a4, a5, a6⟩ := h n
  exact ⟨a1, a2, a5, a6, Or.inl a3⟩

theorem layoutMap_id : LayoutMap id := fun _ => ⟨rfl, rfl, rfl, rfl, Or.inl rfl⟩

theorem layoutMap_comp {φ ψ : GNode → GNode} (hφ : LayoutMap φ) (hψ : LayoutMap ψ) :
    LayoutMap (φ ∘ ψ) := by
  intro n
  obtain ⟨a1, a2, a3, a4, a5⟩ := hψ n
  obtain ⟨b1, b2, b3, b4, b5⟩ := hφ (ψ n)
  refine ⟨by rw [Function.comp_apply, b1, a1], by rw [Function.comp_apply, b2, a2],
    by rw [Function.comp_apply, b3, a3], by rw [Function.comp_apply, b4, a4], ?_⟩
  rw [Function.comp_apply]
  rcases b5 with b5 | b5
  · rw [b5]
    exact a5
  · exact Or.inr b5

theorem geomMap_update_w (i : Nat) (wv : ℚ) :
    GeomMap fun n => if n.nid == i then { n with w := wv } else n := by
  intro n
  by_cases h : (n.nid == i) = true <;> simp [h]

theorem geomMap_update_pos (i : Nat) (px py : ℚ) :
    GeomMap fun n => if n.nid == i then { n with x := px, y := py } else n := by
  intro n
  by_cases h : (n.nid == i) = true <;> simp [h]

theorem layoutMap_update_h (i : Nat) (hv : ℚ) :
    LayoutMap fun n => if n.nid == i then { n with h := hv } else n := by
  intro n
  by_cases h : (n.nid == i) = true <;> simp [h]

theorem layoutMap_update_clear (i : Nat) :
    LayoutMap fun n => if n.nid == i then { n with snapIds := ([] : List Nat) } else n := by
  intro n
  by_cases h : (n.nid == i) = true <;> simp [h]

theorem set_pos_fst (s : GraphState) (i : Nat) (px py : ℚ) :
    (set_pos s i px py).1 = updateNode s i fun n => { n with x := px, y := py } := by
  unfold set_pos
  cases h : getNodeById (updateNode s i fun n => { n with x := px, y := py }) i with
  | none => simp [h]
  | some n => by_cases hk : n.kdmSnapping <;> simp [h, hk]

theorem set_pos_snd {s : GraphState} {i : Nat} {n : GNode} (px py : ℚ)
    (h : getNodeById s i = some n) (hk : n.kdmSnapping = false) :
    (set_pos s i px py).2 = some Err.attributeError := by
  have hmap := getNodeById_of_map s (fun n => if n.nid == i then { n with x := px, y := py } else n)
    (fun n => by by_cases hb : (n.nid == i) = true <;> simp [hb]) i
  have hn : n.nid = i := getNodeById_nid h
  unfold set_pos
  dsimp only
  rw [show (updateNode s i fun n => { n with x := px, y := py }) =
    ⟨s.nodes.map fun n => if n.nid == i then { n with x := px, y := py } else n⟩ from rfl]
  rw [hmap, h]
  simp [hn, hk]

theorem layout_loop_nil (gx bw : ℚ) (s : GraphState) (cy mb : ℚ) :
    layout_loop gx bw [] s cy mb = (s, mb, none) := rfl

theorem layout_loop_cons (gx bw : ℚ) (n : GNode) (rest : List GNode)
    (s : GraphState) (cy mb : ℚ) {s2 : GraphState} {err : Option Err}
    (hsp : set_pos (updateNode s n.nid fun m => { m with w := bw - H_MARGIN * 2 })
      n.nid (gx + H_MARGIN) cy = (s2, err)) :
    layout_loop gx bw (n :: rest) s cy mb =
      match err with
      | some e => (s2, mb, some e)
      | none => layout_loop gx bw rest s2 (cy + n.viewH + V_SPACING)
          (max mb (cy + n.viewH + V_SPACING)) := by
  conv_lhs => unfold layout_loop
  dsimp only
  simp only [hsp]
  cases err <;> rfl

theorem pair_eta_snd {α β : Type} {p : α × β} {b : β} (h : p.2 = b) : p = (p.1, b) := by
  rw [← h]

theorem layout_eq_of_none {s : GraphState} {gid : Nat}
    (h : getNodeById s gid = none) : layout_snapped_nodes s gid = (s, none) := by
  unfold layout_snapped_nodes
  rw [h]

theorem layout_eq_of_empty {s : GraphState} {gid : Nat} {g : GNode}
    (hg : getNodeById s gid = some g) (he : g.snapIds = []) :
    layout_snapped_nodes s gid =
      (updateNode s gid fun n => { n with h := MIN_HEIGHT }, none) := by
  unfold layout_snapped_nodes
  rw [hg]
  simp [he]

theorem layout_eq_of_stale {s : GraphState} {gid : Nat} {g : GNode}
    (hg : getNodeById s gid = some g) (he : ¬ g.snapIds = [])
    (hs : sortByY (live_members s g.snapIds) = []) :
    layout_snapped_nodes s gid =
      (updateNode s gid fun n => { n with snapIds := [] }, none) := by
  unfold layout_snapped_nodes
  rw [hg]
  simp only [List.isEmpty_iff, he, if_false, hs]

theorem layout_eq_of_live_err {s : GraphState} {gid : Nat} {g n0 : GNode}
    {rest : List GNode} {r : GraphState × ℚ × Option Err} {e : Err}
    (hg : getNodeById s gid = some g) (he : ¬ g.snapIds = [])
    (hs : sortByY (live_members s g.snapIds) = n0 :: rest)
    (hr : layout_loop g.x n0.w (n0 :: rest)
        (updateNode s gid fun n => { n with w := n0.w })
        (g.y + SNAP_AREA_HEIGHT + V_SPACING) (g.y + SNAP_AREA_HEIGHT + V_SPACING) = r)
    (herr : r.2.2 = some e) :
    layout_snapped_nodes s gid = (r.1, some e) := by
  unfold layout_snapped_nodes
  rw [hg]
  simp only [List.isEmpty_iff, he, if_false, hs]
  simp only [hr, herr]

theorem layout_eq_of_live_ok {s : GraphState} {gid : Nat} {g n0 : GNode}
    {rest : List GNode} {r : GraphState × ℚ × Option Err}
    (hg : getNodeById s gid = some g) (he : ¬ g.snapIds = [])
    (hs : sortByY (live_members s g.snapIds) = n0 :: rest)
    (hr : layout_loop g.x n0.w (n0 :: rest)
        (updateNode s gid fun n => { n with w := n0.w })
        (g.y + SNAP_AREA_HEIGHT + V_SPACING) (g.y + SNAP_AREA_HEIGHT + V_SPACING) = r)
    (hok : r.2.2 = none) :
    layout_snapped_nodes s gid =
      (updateNode r.1 gid fun n => { n with h := max MIN_HEIGHT (r.2.1 - g.y + V_SPACING) },
       none) := by
  unfold layout_snapped_nodes
  rw [hg]
  simp only [List.isEmpty_iff, he, if_false, hs]
  simp only [hr, hok]

theorem layout_loop_structure (gx bw : ℚ) (l : List GNode) :
    ∀ (s : GraphState) (cy mb : ℚ),
      ∃ φ, GeomMap φ ∧ ((layout_loop gx bw l s cy mb).1).nodes = s.nodes.map φ := by
  induction l with
  | nil =>
    intro s cy mb
    exact ⟨id, geomMap_id, (List.map_id s.nodes).symm⟩
  | cons n rest ih =>
    intro s cy mb
    have hw := geomMap_update_w n.nid (bw - H_MARGIN * 2)
    have hp := geomMap_update_pos n.nid (gx + H_MARGIN) cy
    have hr1 : (set_pos (updateNode s n.nid fun m => { m with w := bw - H_MARGIN * 2 })
        n.nid (gx + H_MARGIN) cy).1.nodes = s.nodes.map
        ((fun m => if m.nid == n.nid then { m with x := gx + H_MARGIN, y := cy } else m) ∘
         (fun m => if m.nid == n.nid then { m with w := bw - H_MARGIN * 2 } else m)) := by
      rw [set_pos_fst]
      rw [updateNode_nodes, updateNode_nodes, List.map_map]
    cases he : (set_pos (updateNode s n.nid fun m => { m with w := bw - H_MARGIN * 2 })
        n.nid (gx + H_MARGIN) cy).2 with
    | some e =>
      refine ⟨_, geomMap_comp hp hw, ?_⟩
      rw [layout_loop_cons gx bw n rest s cy mb (pair_eta_snd he)]
      exact hr1
    | none =>
      obtain ⟨ψ, hψg, hψ⟩ := ih (set_pos (updateNode s n.nid fun m =>
          { m with w := bw - H_MARGIN * 2 }) n.nid (gx + H_MARGIN) cy).1
        (cy + n.viewH + V_SPACING) (max mb (cy + n.viewH + V_SPACING))
      refine ⟨_, geomMap_comp hψg (geomMap_comp hp hw), ?_⟩
      rw [layout_loop_cons gx bw n rest s cy mb (pair_eta_snd he), hψ, hr1, List.map_map]

theorem layout_structure (s : GraphState) (gid : Nat) :
    ∃ φ, LayoutMap φ ∧ ((layout_snapped_nodes s gid).1).nodes = s.nodes.map φ := by
  cases hg : getNodeById s gid with
  | none =>
    rw [layout_eq_of_none hg]
    exact ⟨id, layoutMap_id, (List.map_id s.nodes).symm⟩
  | some g =>
    by_cases he : g.snapIds = []
    · rw [layout_eq_of_empty hg he]
      exact ⟨_, layoutMap_update_h gid MIN_HEIGHT, rfl⟩
    · cases hs : sortByY (live_members s g.snapIds) with
      | nil =>
        rw [layout_eq_of_stale hg he hs]
        exact ⟨_, layoutMap_update_clear gid, rfl⟩
      | cons n0 rest =>
        obtain ⟨ψ, hψg, hψ⟩ := layout_loop_structure g.x n0.w (n0 :: rest)
          (updateNode s gid fun n => { n with w := n0.w })
          (g.y + SNAP_AREA_HEIGHT + V_SPACING) (g.y + SNAP_AREA_HEIGHT + V_SPACING)
        have hr1 : (layout_loop g.x n0.w (n0 :: rest)
            (updateNode s gid fun n => { n with w := n0.w })
            (g.y + SNAP_AREA_HEIGHT + V_SPACING)
            (g.y + SNAP_AREA_HEIGHT + V_SPACING)).1.nodes = s.nodes.map
            (ψ ∘ fun n => if n.nid == gid then { n with w := n0.w } else n) := by
          rw [hψ, updateNode_nodes, List.map_map]
        have hψl : LayoutMap (ψ ∘ fun n => if n.nid == gid then { n with w := n0.w } else n) :=
          layoutMap_comp hψg.layoutMap (geomMap_update_w gid n0.w).layoutMap
        cases herr : (layout_loop g.x n0.w (n0 :: rest)
            (updateNode s gid fun n => { n with w := n0.w })
            (g.y + SNAP_AREA_HEIGHT + V_SPACING)
            (g.y + SNAP_AREA_HEIGHT + V_SPACING)).2.2 with
        | some e =>
          rw [layout_eq_of_live_err hg he hs rfl herr]
          exact ⟨_, hψl, hr1⟩
        | none =>
          rw [layout_eq_of_live_ok hg he hs rfl herr]
          refine ⟨_, layoutMap_comp (layoutMap_update_h gid
            (max MIN_HEIGHT ((layout_loop g.x n0.w (n0 :: rest)
              (updateNode s gid fun n => { n with w := n0.w })
              (g.y + SNAP_AREA_HEIGHT + V_SPACING)
              (g.y + SNAP_AREA_HEIGHT + V_SPACING)).2.1 - g.y + V_SPACING))) hψl, ?_⟩
          rw [updateNode_nodes, hr1, List.map_map]

/-! ### Sorting, live members, and invariant transport -/

theorem mem_insertByY {a x : GNode} : ∀ {l : List GNode}, a ∈ insertByY x l ↔ a = x ∨ a ∈ l := by
  intro l
  induction l with
  | nil => simp [insertByY]
  | cons y ys ih =>
    by_cases h : y.y ≤ x.y
    · simp only [insertByY, if_pos h, List.mem_cons, ih]
      tauto
    · simp only [insertByY, if_neg h, List.mem_cons]

theorem length_insertByY (x : GNode) : ∀ (l : List GNode),
    (insertByY x l).length = l.length + 1 := by
  intro l
  induction l with
  | nil => rfl
  | cons y ys ih =>
    by_cases h : y.y ≤ x.y
    · simp [insertByY, if_pos h, ih]
    · simp [insertByY, if_neg h]

theorem sortByY_foldl_mem {a : GNode} : ∀ (l acc : List GNode),
    (a ∈ l.foldl (fun acc n => insertByY n acc) acc ↔ a ∈ acc ∨ a ∈ l) := by
  intro l
  induction l with
  | nil => simp
  | cons n rest ih =>
    intro acc
    rw [List.foldl_cons, ih, mem_insertByY]
    simp only [List.mem_cons]
    tauto

theorem mem_sortByY {a : GNode} {l : List GNode} : a ∈ sortByY l ↔ a ∈ l := by
  unfold sortByY
  rw [sortByY_foldl_mem]
  simp

theorem sortByY_foldl_length : ∀ (l acc : List GNode),
    (l.foldl (fun acc n => insertByY n acc) acc).length = acc.length + l.length := by
  intro l
  induction l with
  | nil => simp
  | cons n rest ih =>
    intro acc
    rw [List.foldl_cons, ih, length_insertByY]
    simp only [List.length_cons]
    omega

theorem sortByY_eq_nil_iff {l : List GNode} : sortByY l = [] ↔ l = [] := by
  constructor
  · intro h
    have hl := sortByY_foldl_length l []
    unfold sortByY at h
    rw [h] at hl
    simp at hl
    exact List.eq_nil_of_length_eq_zero hl.symm
  · intro h
    rw [h]
    rfl

theorem live_members_spec {s : GraphState} {ids : List Nat} {n : GNode}
    (h : n ∈ live_members s ids) :
    n.nid ∈ ids ∧ getNodeById s n.nid = some n ∧ n.kind = NodeKind.tool := by
  unfold live_members at h
  rw [List.mem_filterMap] at h
  obtain ⟨i, hi, hf⟩ := h
  cases hg : getNodeById s i with
  | none => rw [hg] at hf; simp at hf
  | some m =>
    rw [hg] at hf
    have hf2 : (match m.kind with
        | NodeKind.tool => some m
        | _ => none) = some n := hf
    cases hk : m.kind with
    | plain =>
      rw [hk] at hf2
      simp at hf2
    | grid =>
      rw [hk] at hf2
      simp at hf2
    | tool =>
      rw [hk] at hf2
      simp at hf2
      subst hf2
      have hnid : m.nid = i := getNodeById_nid hg
      rw [hnid]
      exact ⟨hi, hg, hk⟩

theorem live_members_nil_of_map {s : GraphState} {ids : List Nat}
    (h : ids = []) : live_members s ids = [] := by
  rw [h]
  rfl

/-- Node ids are pairwise distinct (Python guarantees unique node ids). -/
def wfIds (s : GraphState) : Prop := (s.nodes.map GNode.nid).Nodup

/-- No node carries the `_kdm_snapping` attribute set; the repository never
assigns it, so every state the application can reach satisfies this. -/
def noSuppression (s : GraphState) : Prop := ∀ n ∈ s.nodes, n.kdmSnapping = false

theorem wfIds_map {s : GraphState} {φ : GNode → GNode}
    (hφ : ∀ n, (φ n).nid = n.nid) (h : wfIds s) : wfIds ⟨s.nodes.map φ⟩ := by
  unfold wfIds at h ⊢
  rw [List.map_map]
  have : (GNode.nid ∘ φ) = GNode.nid := funext fun n => hφ n
  rw [this]
  exact h

theorem noSuppression_map {s : GraphState} {φ : GNode → GNode}
    (hφ : ∀ n, (φ n).kdmSnapping = n.kdmSnapping) (h : noSuppression s) :
    noSuppression ⟨s.nodes.map φ⟩ := by
  intro n hn
  rw [List.mem_map] at hn
  obtain ⟨m, hm, rfl⟩ := hn
  rw [hφ m]
  exact h m hm

theorem grids_of_map {s : GraphState} {φ : GNode → GNode}
    (hφ : ∀ n, (φ n).kind = n.kind) :
    grids_of ⟨s.nodes.map φ⟩ = (grids_of s).map φ := by
  unfold grids_of
  rw [List.filter_map]
  have : ((fun n : GNode => decide (n.kind = NodeKind.grid)) ∘ φ) =
      fun n : GNode => decide (n.kind = NodeKind.grid) := by
    funext n
    simp [Function.comp, hφ n]
  rw [this]

theorem mem_grids_of {s : GraphState} {g : GNode} :
    g ∈ grids_of s ↔ g ∈ s.nodes ∧ g.kind = NodeKind.grid := by
  unfold grids_of
  rw [List.mem_filter]
  simp


/-! ### Branch equations for handle_node_moved and further lookup facts -/

theorem getNodeById_self {s : GraphState} {n : GNode} (hwf : wfIds s)
    (hn : n ∈ s.nodes) : getNodeById s n.nid = some n := by
  cases hq : getNodeById s n.nid with
  | none =>
    exfalso
    unfold getNodeById at hq
    rw [List.find?_eq_none] at hq
    exact absurd (by simp : (n.nid == n.nid) = true) (hq n hn)
  | some m =>
    have hmem : m ∈ s.nodes := getNodeById_mem hq
    have hnid : m.nid = n.nid := getNodeById_nid hq
    have heq := List.inj_on_of_nodup_map hwf hmem hn hnid
    rw [heq]

theorem handle_eq_of_none {s : GraphState} {i : Nat}
    (h : getNodeById s i = none) : handle_node_moved s i = (s, none) := by
  unfold handle_node_moved
  rw [h]

theorem handle_eq_of_no_grids {s : GraphState} {i : Nat} {m : GNode}
    (hm : getNodeById s i = some m) (hg : grids_of s = []) :
    handle_node_moved s i = (s, none) := by
  unfold handle_node_moved
  rw [hm]
  simp [hg]

theorem handle_eq_of_grid {s : GraphState} {i : Nat} {m : GNode}
    (hm : getNodeById s i = some m) (hg : ¬ grids_of s = [])
    (hk : m.kind = NodeKind.grid) :
    handle_node_moved s i = layout_snapped_nodes s i := by
  unfold handle_node_moved
  rw [hm]
  simp only [List.isEmpty_iff, hg, if_false, hk]

theorem handle_eq_of_plain {s : GraphState} {i : Nat} {m : GNode}
    (hm : getNodeById s i = some m) (hg : ¬ grids_of s = [])
    (hk : m.kind = NodeKind.plain) :
    handle_node_moved s i = (s, none) := by
  unfold handle_node_moved
  rw [hm]
  simp only [List.isEmpty_iff, hg, if_false, hk]

theorem handle_eq_tool_none_none {s : GraphState} {i : Nat} {m : GNode}
    (hm : getNodeById s i = some m) (hg : ¬ grids_of s = [])
    (hk : m.kind = NodeKind.tool)
    (htgt : target_owner s m = none) (hcur : current_owner s i = none) :
    handle_node_moved s i = (s, none) := by
  unfold handle_node_moved
  rw [hm]
  simp only [List.isEmpty_iff, hg, if_false, hk, htgt, hcur]

theorem handle_eq_tool_none_some {s : GraphState} {i : Nat} {m cp : GNode}
    (hm : getNodeById s i = some m) (hg : ¬ grids_of s = [])
    (hk : m.kind = NodeKind.tool)
    (htgt : target_owner s m = none) (hcur : current_owner s i = some cp) :
    handle_node_moved s i =
      layout_snapped_nodes
        (updateNode s cp.nid fun n => { n with snapIds := n.snapIds.erase i }) cp.nid := by
  unfold handle_node_moved
  rw [hm]
  simp only [List.isEmpty_iff, hg, if_false, hk, htgt, hcur]

theorem handle_eq_tool_some_cur_none {s : GraphState} {i : Nat} {m tp : GNode}
    (hm : getNodeById s i = some m) (hg : ¬ grids_of s = [])
    (hk : m.kind = NodeKind.tool)
    (htgt : target_owner s m = some tp) (hcur : current_owner s i = none) :
    handle_node_moved s i =
      layout_snapped_nodes
        (updateNode s tp.nid fun n =>
          if n.snapIds.contains i then n else { n with snapIds := n.snapIds ++ [i] })
        tp.nid := by
  unfold handle_node_moved
  rw [hm]
  simp only [List.isEmpty_iff, hg, if_false, hk, htgt, hcur]

theorem handle_eq_tool_some_cur_same {s : GraphState} {i : Nat} {m tp cp : GNode}
    (hm : getNodeById s i = some m) (hg : ¬ grids_of s = [])
    (hk : m.kind = NodeKind.tool)
    (htgt : target_owner s m = some tp) (hcur : current_owner s i = some cp)
    (hnid : cp.nid = tp.nid) :
    handle_node_moved s i =
      layout_snapped_nodes
        (updateNode s tp.nid fun n =>
          if n.snapIds.contains i then n else { n with snapIds := n.snapIds ++ [i] })
        tp.nid := by
  unfold handle_node_moved
  rw [hm]
  simp only [List.isEmpty_iff, hg, if_false, hk, htgt, hcur, hnid, if_pos]

theorem handle_eq_tool_some_cur_diff {s : GraphState} {i : Nat} {m tp cp : GNode}
    (hm : getNodeById s i = some m) (hg : ¬ grids_of s = [])
    (hk : m.kind = NodeKind.tool)
    (htgt : target_owner s m = some tp) (hcur : current_owner s i = some cp)
    (hnid : ¬ cp.nid = tp.nid) :
    handle_node_moved s i =
      (match (layout_snapped_nodes
          (updateNode s cp.nid fun n => { n with snapIds := n.snapIds.erase i })
          cp.nid).2 with
       | some e =>
         ((layout_snapped_nodes
            (updateNode s cp.nid fun n => { n with snapIds := n.snapIds.erase i })
            cp.nid).1, some e)
       | none =>
         layout_snapped_nodes
           (updateNode
             ((layout_snapped_nodes
               (updateNode s cp.nid fun n => { n with snapIds := n.snapIds.erase i })
               cp.nid).1)
             tp.nid (fun n =>
               if n.snapIds.contains i then n else { n with snapIds := n.snapIds ++ [i] }))
           tp.nid) := by
  unfold handle_node_moved
  rw [hm]
  simp only [List.isEmpty_iff, hg, if_false, hk, htgt, hcur, hnid, if_neg]


theorem getNodeById_updateNode (s : GraphState) (i : Nat) (f : GNode → GNode)
    (hid : ∀ n, (f n).nid = n.nid) (j : Nat) :
    getNodeById (updateNode s i f) j =
      (getNodeById s j).map fun n => if n.nid == i then f n else n :=
  getNodeById_of_map s _ (fun n => by by_cases hb : (n.nid == i) = true <;> simp [hb, hid n]) j

theorem updateNode_updateNode_self (s : GraphState) (i : Nat) (f : GNode → GNode)
    (hff : ∀ n, f (f n) = f n) (hid : ∀ n, (f n).nid = n.nid) :
    updateNode (updateNode s i f) i f = updateNode s i f := by
  unfold updateNode
  congr 1
  rw [List.map_map]
  apply List.map_congr_left
  intro n _
  by_cases hb : (n.nid == i) = true <;> simp [Function.comp, hb, hid n, hff n]

/-! ### Claim C10 — a moved node that is not a ToolBaseNode is ignored -/

/-- C10: if the moved node is not a `ToolBaseNode` instance, the call
returns without raising and without modifying any state at all — no member
list, no geometry, no position — even if its reference point is inside a
container's snap area. -/
theorem c10_plain_node_is_ignored (s : GraphState) (i : Nat) (n : GNode)
    (h : getNodeById s i = some n) (hk : n.kind = NodeKind.plain) :
    handle_node_moved s i = (s, none) := by
  cases hg : grids_of s with
  | nil => exact handle_eq_of_no_grids h hg
  | cons a l =>
    have hne : ¬ grids_of s = [] := by rw [hg]; simp
    exact handle_eq_of_plain h hne hk

/-- A graph with one grid and one plain library node whose tested point is
inside the grid's snap area. -/
def c10_state : GraphState :=
  ⟨[⟨1, NodeKind.grid, 0, 0, 220, 120, 60, [], false⟩,
    ⟨2, NodeKind.plain, 10, 5, 100, 60, 60, [], false⟩]⟩

/-- Witness for C10 at a concrete graph. -/
theorem c10_plain_node_is_ignored_witness :
    handle_node_moved c10_state 2 = (c10_state, none) :=
  c10_plain_node_is_ignored c10_state 2
    ⟨2, NodeKind.plain, 10, 5, 100, 60, 60, [], false⟩ (by decide) (by decide)

/-! ### Claim C1 — layout is not idempotent -/

/-- A grid of height 300 whose only stored member id is stale. -/
def c1_state : GraphState := ⟨[⟨1, NodeKind.grid, 0, 0, 220, 300, 60, [99], false⟩]⟩

/-- C1 counterexample: both layout calls return without raising, yet the
first call leaves the height at 300 (it only clears the stale list) while
the second call resets it to `MIN_HEIGHT = 120`: the results differ, so two
successive layout calls with no intervening state change do not produce
identical sizes. -/
theorem c1_counterexample_two_passes_differ :
    (layout_snapped_nodes c1_state 1).2 = none ∧
    (layout_snapped_nodes (layout_snapped_nodes c1_state 1).1 1).2 = none ∧
    (getNodeById (layout_snapped_nodes c1_state 1).1 1).map GNode.h = some 300 ∧
    (getNodeById (layout_snapped_nodes (layout_snapped_nodes c1_state 1).1 1).1 1).map GNode.h
      = some 120 := by
  norm_num +decide [c1_state, layout_snapped_nodes, layout_loop, set_pos, updateNode,
    getNodeById, live_members, sortByY, insertByY, List.find?, List.filterMap, List.foldl,
    MIN_HEIGHT, SNAP_AREA_HEIGHT, V_SPACING, H_MARGIN]

/-- C1 amended: the layout pass is idempotent for a container whose stored
member-id list is empty — the second call reproduces the first call's
result exactly. -/
theorem c1_amended_layout_idempotent_on_empty (s : GraphState) (gid : Nat) (g : GNode)
    (hg : getNodeById s gid = some g) (he : g.snapIds = []) :
    layout_snapped_nodes (layout_snapped_nodes s gid).1 gid = layout_snapped_nodes s gid := by
  rw [layout_eq_of_empty hg he]
  have hg1 : getNodeById (updateNode s gid fun n => { n with h := MIN_HEIGHT }) gid
      = some { g with h := MIN_HEIGHT } := by
    rw [getNodeById_updateNode s gid (fun n => { n with h := MIN_HEIGHT }) (fun n => rfl) gid,
      hg]
    have hb : g.nid = gid := getNodeById_nid hg
    simp [hb]
  rw [show ((updateNode s gid fun n => { n with h := MIN_HEIGHT }, (none : Option Err)).1)
    = updateNode s gid fun n => { n with h := MIN_HEIGHT } from rfl]
  rw [layout_eq_of_empty hg1 he]
  rw [updateNode_updateNode_self s gid (fun n => { n with h := MIN_HEIGHT })
    (fun n => rfl) (fun n => rfl)]

/-- A grid with an empty member list, for the C1 witness. -/
def c1w_state : GraphState := ⟨[⟨1, NodeKind.grid, 0, 0, 220, 300, 60, [], false⟩]⟩

/-- Witness for the amended C1 at a concrete graph. -/
theorem c1_amended_witness :
    layout_snapped_nodes (layout_snapped_nodes c1w_state 1).1 1
      = layout_snapped_nodes c1w_state 1 :=
  c1_amended_layout_idempotent_on_empty c1w_state 1
    ⟨1, NodeKind.grid, 0, 0, 220, 300, 60, [], false⟩ (by decide) rfl

/-! ### Claim C2 — stale cleanup fails when a live member remains -/

/-- A grid storing a stale id 99 together with the id of a live member 2. -/
def c2_state : GraphState :=
  ⟨[⟨1, NodeKind.grid, 0, 0, 220, 120, 60, [99, 2], false⟩,
    ⟨2, NodeKind.tool, 10, 60, 200, 60, 60, [], false⟩]⟩

/-- C2: with a stale id alongside a live one, a single layout call keeps
the stale id 99 in the stored list (the filtered list is never written
back) and raises `AttributeError` while repositioning the live member. -/
theorem c2_stale_id_survives_and_layout_raises :
    (getNodeById (layout_snapped_nodes c2_state 1).1 1).map GNode.snapIds = some [99, 2] ∧
    (layout_snapped_nodes c2_state 1).2 = some Err.attributeError := by
  norm_num +decide [c2_state, layout_snapped_nodes, layout_loop, set_pos, updateNode,
    getNodeById, live_members, sortByY, insertByY, List.find?, List.filterMap, List.foldl,
    MIN_HEIGHT, SNAP_AREA_HEIGHT, V_SPACING, H_MARGIN]

/-! ### Claim C3 — the engine raises out of the move entry point -/

/-- A grid owning one live member that sits inside its snap area. -/
def c3_state : GraphState :=
  ⟨[⟨1, NodeKind.grid, 0, 0, 220, 120, 60, [2], false⟩,
    ⟨2, NodeKind.tool, 10, 5, 200, 60, 60, [], false⟩]⟩

/-- The grid of `c3_state`. -/
def c3_grid : GNode := ⟨1, NodeKind.grid, 0, 0, 220, 120, 60, [2], false⟩

/-- The member node of `c3_state`. -/
def c3_node : GNode := ⟨2, NodeKind.tool, 10, 5, 200, 60, 60, [], false⟩

/-- C3: the move entry point raises.  Handling a committed move of node 2
(already a member, still inside the area) re-lays out the grid, whose
`set_pos` call on the member evaluates the nonexistent
`DateGridNode.on_node_moved` and the `AttributeError` propagates out of
`handle_node_moved`; `set_pos` likewise raises on its own. -/
theorem c3_move_entry_point_raises :
    (handle_node_moved c3_state 2).2 = some Err.attributeError ∧
    (set_pos c3_state 2 50 50).2 = some Err.attributeError := by
  have hm : getNodeById c3_state 2 = some c3_node := rfl
  have hg : ¬ grids_of c3_state = [] := by decide
  have htgt : target_owner c3_state c3_node = some c3_grid := by
    norm_num [target_owner, grids_of, List.find?, List.filter, is_in_snap_area,
      SNAP_AREA_HEIGHT, c3_state, c3_grid, c3_node]
  have hcur : current_owner c3_state 2 = some c3_grid := by decide
  constructor
  · rw [handle_eq_tool_some_cur_same hm hg rfl htgt hcur rfl]
    norm_num +decide [c3_state, c3_grid, layout_snapped_nodes, layout_loop, set_pos,
      updateNode, getNodeById, live_members, sortByY, insertByY, List.find?,
      List.filterMap, List.foldl, MIN_HEIGHT, SNAP_AREA_HEIGHT, V_SPACING, H_MARGIN]
  · norm_num +decide [c3_state, set_pos, updateNode, getNodeById, List.find?]

/-! ### Claim C4 — the re-entrancy suppression never engages -/

/-- Same shape as `c3_state`: a grid with one live member. -/
def c4_state : GraphState :=
  ⟨[⟨1, NodeKind.grid, 0, 0, 220, 120, 60, [2], false⟩,
    ⟨2, NodeKind.tool, 10, 5, 200, 60, 60, [], false⟩]⟩

/-- C4: no layout pass ever assigns the `_kdm_snapping` flag — the flags
after any layout pass are exactly the flags before it (first conjunct,
over every graph), so suppression is never engaged and never needs to be
restored; instead, with the flag at its default `False`, the member's
`set_pos` during the pass raises `AttributeError` (second conjunct). -/
theorem c4_suppression_flag_never_assigned :
    (∀ (s : GraphState) (gid : Nat),
      ((layout_snapped_nodes s gid).1).nodes.map GNode.kdmSnapping =
        s.nodes.map GNode.kdmSnapping) ∧
    (layout_snapped_nodes c4_state 1).2 = some Err.attributeError := by
  constructor
  · intro s gid
    obtain ⟨φ, hφ, hmap⟩ := layout_structure s gid
    rw [hmap, List.map_map]
    exact List.map_congr_left fun n _ => (hφ n).2.2.2.1
  · norm_num +decide [c4_state, layout_snapped_nodes, layout_loop, set_pos, updateNode,
      getNodeById, live_members, sortByY, insertByY, List.find?, List.filterMap,
      List.foldl, MIN_HEIGHT, SNAP_AREA_HEIGHT, V_SPACING, H_MARGIN]


/-! ### Claim C5 — the reference point is not a consistent node convention -/

/-- First-match characterization of `List.find?`: the result is the unique
element that satisfies the predicate while everything before it fails. -/
theorem find?_first_iff {α : Type} (p : α → Bool) (l : List α) (a : α) :
    l.find? p = some a ↔
      ∃ l1 l2, l = l1 ++ a :: l2 ∧ (∀ e ∈ l1, p e = false) ∧ p a = true := by
  induction l with
  | nil => simp
  | cons x xs ih =>
    cases hx : p x with
    | true =>
      rw [List.find?_cons_of_pos _ hx]
      constructor
      · intro h
        injection h with h
        subst h
        exact ⟨[], xs, rfl, by simp, hx⟩
      · rintro ⟨l1, l2, heq, hfail, hpa⟩
        cases l1 with
        | nil =>
          simp only [List.nil_append] at heq
          injection heq with h1 h2
          rw [h1]
        | cons y ys =>
          simp only [List.cons_append] at heq
          injection heq with h1 h2
          exfalso
          have hy : p y = false := hfail y (by simp)
          rw [← h1, hx] at hy
          exact Bool.noConfusion hy
    | false =>
      rw [List.find?_cons_of_neg _ (by simp [hx])]
      rw [ih]
      constructor
      · rintro ⟨l1, l2, heq, hfail, hpa⟩
        refine ⟨x :: l1, l2, by rw [heq, List.cons_append], ?_, hpa⟩
        intro e he
        rcases List.mem_cons.mp he with rfl | he2
        · exact hx
        · exact hfail e he2
      · rintro ⟨l1, l2, heq, hfail, hpa⟩
        cases l1 with
        | nil =>
          simp only [List.nil_append] at heq
          injection heq with h1 h2
          exfalso
          rw [h1, hpa] at hx
          exact Bool.noConfusion hx
        | cons y ys =>
          simp only [List.cons_append] at heq
          injection heq with h1 h2
          exact ⟨ys, l2, h2, fun e he => hfail e (by simp [he]), hpa⟩

/-- Modelled from the spec: the snap region of a container, translated to
world coordinates, contains a given point — the region is the container's
x-range crossed with the top `SNAP_AREA_HEIGHT` band.  Used to state the
spec's reference-point conventions (node center, or a fixed offset from
the node's top-left corner), which the source does not implement. -/
def spec_point_in_snap_region (dn : GNode) (px py : ℚ) : Prop :=
  dn.x ≤ px ∧ px ≤ dn.x + dn.w ∧ dn.y ≤ py ∧ py ≤ dn.y + SNAP_AREA_HEIGHT

/-- First container of the C5 scenario: x-range 0..100. -/
def c5_gridA : GNode := ⟨1, NodeKind.grid, 0, 0, 100, 120, 60, [], false⟩

/-- Second container of the C5 scenario: x-range 2000..3000. -/
def c5_gridB : GNode := ⟨10, NodeKind.grid, 2000, 0, 1000, 120, 60, [], false⟩

/-- The moved node of the C5 scenario, of fixed size 80 by 50, placed at a
given x. -/
def c5_node (px : ℚ) : GNode := ⟨2, NodeKind.tool, px, 0, 80, 50, 60, [], false⟩

/-- The C5 graph with the moved node at a given x. -/
def c5_state (px : ℚ) : GraphState := ⟨[c5_gridA, c5_gridB, c5_node px]⟩

/-- C5 counterexample: the same node (same size) moved to x = -50 is
adopted by container A, and moved to x = 1500 is adopted by container B
(third conjunct: `handle_node_moved` really appends it to B's member
list) — yet no fixed reference point measured from the node's own
geometry explains both outcomes: any offset (a, b) that puts the point
inside A's region in the first event (which forces a ≤ 150) cannot reach
B's region in the second (which forces a ≥ 500).  The code's tested point
uses the tested container's half-width, not a node convention. -/
theorem c5_counterexample_no_consistent_reference_point :
    target_owner (c5_state (-50)) (c5_node (-50)) = some c5_gridA ∧
    target_owner (c5_state 1500) (c5_node 1500) = some c5_gridB ∧
    (getNodeById (handle_node_moved (c5_state 1500) 2).1 10).map GNode.snapIds
      = some [2] ∧
    ∀ a b : ℚ, ¬ (spec_point_in_snap_region c5_gridA (-50 + a) (0 + b) ∧
        spec_point_in_snap_region c5_gridB (1500 + a) (0 + b)) := by
  refine ⟨?_, ?_, ?_, ?_⟩
  · norm_num [target_owner, grids_of, List.find?, List.filter, is_in_snap_area,
      SNAP_AREA_HEIGHT, c5_state, c5_gridA, c5_gridB, c5_node]
  · norm_num [target_owner, grids_of, List.find?, List.filter, is_in_snap_area,
      SNAP_AREA_HEIGHT, c5_state, c5_gridA, c5_gridB, c5_node]
  · have hm : getNodeById (c5_state 1500) 2 = some (c5_node 1500) := rfl
    have hgr : ¬ grids_of (c5_state 1500) = [] := by decide
    have htgt : target_owner (c5_state 1500) (c5_node 1500) = some c5_gridB := by
      norm_num [target_owner, grids_of, List.find?, List.filter, is_in_snap_area,
        SNAP_AREA_HEIGHT, c5_state, c5_gridA, c5_gridB, c5_node]
    have hcur : current_owner (c5_state 1500) 2 = none := by decide
    rw [handle_eq_tool_some_cur_none hm hgr rfl htgt hcur]
    norm_num +decide [c5_state, c5_gridA, c5_gridB, c5_node, layout_snapped_nodes,
      layout_loop, set_pos, updateNode, getNodeById, live_members, sortByY, insertByY,
      List.find?, List.filterMap, List.foldl, MIN_HEIGHT, SNAP_AREA_HEIGHT, V_SPACING,
      H_MARGIN]
  · intro a b h
    simp only [spec_point_in_snap_region, c5_gridA, c5_gridB] at h
    obtain ⟨⟨h1, h2, h3, h4⟩, ⟨h5, h6, h7, h8⟩⟩ := h
    linarith

/-- C5 amended: the target owner is the first grid, in graph enumeration
order, whose snap test passes — but the tested point is per container:
its x is the node's x plus half the TESTED container's width.  The iff
also settles the tie-break: a grid is the target exactly when every grid
earlier in the enumeration fails the test. -/
theorem c5_amended_target_is_first_matching_grid (s : GraphState) (m dn : GNode) :
    target_owner s m = some dn ↔
      ∃ l1 l2, grids_of s = l1 ++ dn :: l2 ∧
        (∀ e ∈ l1, is_in_snap_area e m = false) ∧ is_in_snap_area dn m = true := by
  unfold target_owner
  exact find?_first_iff _ _ _

/-- Witness for the amended C5 at a concrete graph. -/
theorem c5_amended_witness :
    target_owner (c5_state 1500) (c5_node 1500) = some c5_gridB ↔
      ∃ l1 l2, grids_of (c5_state 1500) = l1 ++ c5_gridB :: l2 ∧
        (∀ e ∈ l1, is_in_snap_area e (c5_node 1500) = false) ∧
        is_in_snap_area c5_gridB (c5_node 1500) = true :=
  c5_amended_target_is_first_matching_grid (c5_state 1500) (c5_node 1500) c5_gridB


/-! ### Claim C8 — stored member order is not re-derived by sorting -/

/-- Adjacent-sorted test on a list of y positions. -/
def ys_adjacent_sorted : List ℚ → Bool
  | [] => true
  | [_] => true
  | a :: b :: t => decide (a ≤ b) && ys_adjacent_sorted (b :: t)

/-- The y positions of a container's stored member ids, in stored order
(ids that do not resolve are skipped). -/
def stored_member_ys (s : GraphState) (g : GNode) : List ℚ :=
  g.snapIds.filterMap fun i => (getNodeById s i).map GNode.y

/-- A grid storing [2, 3] where member 2 sits far below member 3. -/
def c8_state : GraphState :=
  ⟨[⟨1, NodeKind.grid, 0, 0, 220, 120, 60, [2, 3], false⟩,
    ⟨2, NodeKind.tool, 10, 500, 200, 60, 60, [], false⟩,
    ⟨3, NodeKind.tool, 10, 60, 200, 60, 60, [], false⟩]⟩

/-- C8 counterexample: after a layout call the stored member sequence is
still [2, 3] (the sorted order is computed into a local list and never
written back), and the stored-order y positions are [500, 50], which is
not ascending: member 0's y exceeds member 1's y. -/
theorem c8_counterexample_stored_order_unsorted :
    (getNodeById (layout_snapped_nodes c8_state 1).1 1).map GNode.snapIds = some [2, 3] ∧
    ((getNodeById (layout_snapped_nodes c8_state 1).1 1).map fun g =>
      ys_adjacent_sorted (stored_member_ys (layout_snapped_nodes c8_state 1).1 g))
      = some false := by
  norm_num +decide [c8_state, layout_snapped_nodes, layout_loop, set_pos, updateNode,
    getNodeById, live_members, sortByY, insertByY, stored_member_ys, ys_adjacent_sorted,
    List.find?, List.filterMap, List.foldl, MIN_HEIGHT, SNAP_AREA_HEIGHT, V_SPACING,
    H_MARGIN]

/-- C8 amended: the layout pass never rewrites the stored member-id list
to the sorted order: after a layout call the container's stored list is
either exactly what it was before the call or the empty list (the
stale-cleanup write); sorting by current y is applied only to a local list
that determines placement order. -/
theorem c8_amended_stored_list_never_reordered (s : GraphState) (gid : Nat) (g : GNode)
    (hg : getNodeById s gid = some g) :
    (getNodeById (layout_snapped_nodes s gid).1 gid).map GNode.snapIds = some g.snapIds ∨
    (getNodeById (layout_snapped_nodes s gid).1 gid).map GNode.snapIds = some [] := by
  obtain ⟨φ, hφ, hmap⟩ := layout_structure s gid
  have hstate : (layout_snapped_nodes s gid).1 = ⟨s.nodes.map φ⟩ := by
    rw [← hmap]
  rw [hstate, getNodeById_of_map s φ (fun n => (hφ n).1) gid, hg]
  rcases (hφ g).2.2.2.2 with h | h
  · left
    simp [h]
  · right
    simp [h]

/-- Witness for the amended C8 at a concrete graph. -/
theorem c8_amended_witness :
    (getNodeById (layout_snapped_nodes c8_state 1).1 1).map GNode.snapIds
      = some ((⟨1, NodeKind.grid, 0, 0, 220, 120, 60, [2, 3], false⟩ : GNode).snapIds) ∨
    (getNodeById (layout_snapped_nodes c8_state 1).1 1).map GNode.snapIds = some [] :=
  c8_amended_stored_list_never_reordered c8_state 1
    ⟨1, NodeKind.grid, 0, 0, 220, 120, 60, [2, 3], false⟩ rfl

/-! ### Claim C9 — the height update mostly never happens -/

theorem getNodeById_h_updateNode (s : GraphState) (i : Nat) (f : GNode → GNode)
    (hid : ∀ n, (f n).nid = n.nid) (hh : ∀ n, (f n).h = n.h) (j : Nat) :
    (getNodeById (updateNode s i f) j).map GNode.h = (getNodeById s j).map GNode.h := by
  rw [getNodeById_updateNode s i f hid j]
  cases getNodeById s j with
  | none => rfl
  | some n =>
    by_cases hb : n.nid = i
    · simp [hb, hh n]
    · simp [hb]

theorem getNodeById_h_updateNode_w (s : GraphState) (i : Nat) (wv : ℚ) (j : Nat) :
    (getNodeById (updateNode s i fun n => { n with w := wv }) j).map GNode.h
      = (getNodeById s j).map GNode.h :=
  getNodeById_h_updateNode s i (fun n => { n with w := wv }) (fun n => rfl) (fun n => rfl) j

theorem getNodeById_h_updateNode_pos (s : GraphState) (i : Nat) (px py : ℚ) (j : Nat) :
    (getNodeById (updateNode s i fun n => { n with x := px, y := py }) j).map GNode.h
      = (getNodeById s j).map GNode.h :=
  getNodeById_h_updateNode s i (fun n => { n with x := px, y := py })
    (fun n => rfl) (fun n => rfl) j

/-- With no suppression flag set, the placement loop raises on its very
first member: the member's repositioning `set_pos` evaluates the missing
`on_node_moved` attribute. -/
theorem layout_loop_first_raises (gx bw cy mb : ℚ) (n0 : GNode) (rest : List GNode)
    (s1 : GraphState)
    (hex : (getNodeById s1 n0.nid).isSome) (hsup : noSuppression s1) :
    layout_loop gx bw (n0 :: rest) s1 cy mb =
      ((set_pos (updateNode s1 n0.nid fun m => { m with w := bw - H_MARGIN * 2 })
        n0.nid (gx + H_MARGIN) cy).1, mb, some Err.attributeError) := by
  obtain ⟨m, hm⟩ := Option.isSome_iff_exists.mp hex
  have hm2 : getNodeById (updateNode s1 n0.nid fun m => { m with w := bw - H_MARGIN * 2 })
      n0.nid = some (if m.nid == n0.nid then { m with w := bw - H_MARGIN * 2 } else m) := by
    rw [getNodeById_updateNode s1 n0.nid (fun m => { m with w := bw - H_MARGIN * 2 })
      (fun n => rfl) n0.nid, hm]
    rfl
  have hkdm : m.kdmSnapping = false := hsup m (getNodeById_mem hm)
  have hkdm2 : (if m.nid == n0.nid then { m with w := bw - H_MARGIN * 2 } else m).kdmSnapping
      = false := by
    by_cases hb : (m.nid == n0.nid) = true <;> simp [hb, hkdm]
  have hsp := set_pos_snd (gx + H_MARGIN) cy hm2 hkdm2
  rw [layout_loop_cons gx bw n0 rest s1 cy mb (pair_eta_snd hsp)]

/-- With no suppression flag set, a layout pass can only return without
error when the container's stored list is empty or resolves to no live
member. -/
theorem layout_ok_no_live {s : GraphState} {gid : Nat} {g : GNode}
    (hsup : noSuppression s) (hg : getNodeById s gid = some g)
    (hok : (layout_snapped_nodes s gid).2 = none) :
    g.snapIds = [] ∨ live_members s g.snapIds = [] := by
  by_cases he : g.snapIds = []
  · exact Or.inl he
  · right
    cases hs : sortByY (live_members s g.snapIds) with
    | nil => exact sortByY_eq_nil_iff.mp hs
    | cons n0 rest =>
      exfalso
      have hn0 : n0 ∈ live_members s g.snapIds := by
        rw [← mem_sortByY (l := live_members s g.snapIds)]
        rw [hs]
        exact List.mem_cons_self n0 rest
      obtain ⟨hmem, hlook, hkind⟩ := live_members_spec hn0
      have hl1 : getNodeById (updateNode s gid fun n => { n with w := n0.w }) n0.nid
          = some (if n0.nid == gid then { n0 with w := n0.w } else n0) := by
        rw [getNodeById_updateNode s gid (fun n => { n with w := n0.w })
          (fun n => rfl) n0.nid, hlook]
        rfl
      have hsome : (getNodeById (updateNode s gid fun n => { n with w := n0.w }) n0.nid).isSome := by
        rw [hl1]
        rfl
      have hsup1 : noSuppression (updateNode s gid fun n => { n with w := n0.w }) :=
        noSuppression_map (fun n => by by_cases hb : (n.nid == gid) = true <;> simp [hb]) hsup
      have hraise := layout_loop_first_raises g.x n0.w
        (g.y + SNAP_AREA_HEIGHT + V_SPACING) (g.y + SNAP_AREA_HEIGHT + V_SPACING)
        n0 rest _ hsome hsup1
      have hlay := layout_eq_of_live_err hg he hs hraise rfl
      rw [hlay] at hok
      exact Option.noConfusion hok

/-- A grid of height 50 whose single stored id is stale. -/
def c9_state : GraphState := ⟨[⟨1, NodeKind.grid, 0, 0, 220, 50, 60, [99], false⟩]⟩

/-- C9 counterexample: a layout pass on a grid whose only stored id is
stale returns without error, leaves zero live members, and leaves the
height at 50 — which is neither `MIN_HEIGHT` exactly nor at least
`MIN_HEIGHT`, falsifying both height clauses of the claim. -/
theorem c9_counterexample_height_not_updated :
    live_members c9_state [99] = [] ∧
    (layout_snapped_nodes c9_state 1).2 = none ∧
    (getNodeById (layout_snapped_nodes c9_state 1).1 1).map GNode.h = some 50 ∧
    ¬ MIN_HEIGHT ≤ (50 : ℚ) := by
  refine ⟨rfl, ?_, ?_, by norm_num [MIN_HEIGHT]⟩
  · norm_num +decide [c9_state, layout_snapped_nodes, layout_loop, set_pos, updateNode,
      getNodeById, live_members, sortByY, insertByY, List.find?, List.filterMap,
      List.foldl, MIN_HEIGHT, SNAP_AREA_HEIGHT, V_SPACING, H_MARGIN]
  · norm_num +decide [c9_state, layout_snapped_nodes, layout_loop, set_pos, updateNode,
      getNodeById, live_members, sortByY, insertByY, List.find?, List.filterMap,
      List.foldl, MIN_HEIGHT, SNAP_AREA_HEIGHT, V_SPACING, H_MARGIN]

/-- C9 amended: after a layout pass (with the suppression flag unset, as
it always is), the container's height satisfies: with an empty stored list
it is set to exactly `MIN_HEIGHT`; when the stored list is non-empty but
no id resolves to a live member, the list is cleared and the height is
left unchanged; and when at least one live member exists the pass raises
`AttributeError` before reaching the height update, leaving the height
unchanged. -/
theorem c9_amended_height_cases (s : GraphState) (gid : Nat) (g : GNode)
    (hg : getNodeById s gid = some g) (hsup : noSuppression s) :
    (g.snapIds = [] →
      (getNodeById (layout_snapped_nodes s gid).1 gid).map GNode.h = some MIN_HEIGHT ∧
      (layout_snapped_nodes s gid).2 = none) ∧
    (¬ g.snapIds = [] → live_members s g.snapIds = [] →
      (getNodeById (layout_snapped_nodes s gid).1 gid).map GNode.snapIds = some [] ∧
      (getNodeById (layout_snapped_nodes s gid).1 gid).map GNode.h = some g.h ∧
      (layout_snapped_nodes s gid).2 = none) ∧
    (¬ live_members s g.snapIds = [] →
      (layout_snapped_nodes s gid).2 = some Err.attributeError ∧
      (getNodeById (layout_snapped_nodes s gid).1 gid).map GNode.h = some g.h) := by
  refine ⟨?_, ?_, ?_⟩
  · intro he
    rw [layout_eq_of_empty hg he]
    constructor
    · rw [show ((updateNode s gid fun n => { n with h := MIN_HEIGHT },
        (none : Option Err)).1) = updateNode s gid fun n => { n with h := MIN_HEIGHT }
        from rfl]
      rw [getNodeById_updateNode s gid (fun n => { n with h := MIN_HEIGHT })
        (fun n => rfl) gid, hg]
      have hb : g.nid = gid := getNodeById_nid hg
      simp [hb]
    · rfl
  · intro he hlive
    have hs : sortByY (live_members s g.snapIds) = [] := by
      rw [hlive]
      rfl
    rw [layout_eq_of_stale hg he hs]
    have hb : g.nid = gid := getNodeById_nid hg
    refine ⟨?_, ?_, rfl⟩
    · rw [show ((updateNode s gid fun n => { n with snapIds := ([] : List Nat) },
        (none : Option Err)).1) = updateNode s gid fun n => { n with snapIds := ([] : List Nat) }
        from rfl]
      rw [getNodeById_updateNode s gid (fun n => { n with snapIds := ([] : List Nat) })
        (fun n => rfl) gid, hg]
      simp [hb]
    · rw [show ((updateNode s gid fun n => { n with snapIds := ([] : List Nat) },
        (none : Option Err)).1) = updateNode s gid fun n => { n with snapIds := ([] : List Nat) }
        from rfl]
      rw [getNodeById_h_updateNode s gid (fun n => { n with snapIds := ([] : List Nat) })
        (fun n => rfl) (fun n => rfl) gid, hg]
      rfl
  · intro hlive
    have he : ¬ g.snapIds = [] := by
      intro hempty
      exact hlive (live_members_nil_of_map hempty)
    cases hs : sortByY (live_members s g.snapIds) with
    | nil => exact absurd (sortByY_eq_nil_iff.mp hs) hlive
    | cons n0 rest =>
      have hn0 : n0 ∈ live_members s g.snapIds := by
        rw [← mem_sortByY (l := live_members s g.snapIds)]
        rw [hs]
        exact List.mem_cons_self n0 rest
      obtain ⟨hmem, hlook, hkind⟩ := live_members_spec hn0
      have hl1 : getNodeById (updateNode s gid fun n => { n with w := n0.w }) n0.nid
          = some (if n0.nid == gid then { n0 with w := n0.w } else n0) := by
        rw [getNodeById_updateNode s gid (fun n => { n with w := n0.w })
          (fun n => rfl) n0.nid, hlook]
        rfl
      have hsome : (getNodeById (updateNode s gid fun n => { n with w := n0.w }) n0.nid).isSome := by
        rw [hl1]
        rfl
      have hsup1 : noSuppression (updateNode s gid fun n => { n with w := n0.w }) :=
        noSuppression_map (fun n => by by_cases hb : (n.nid == gid) = true <;> simp [hb]) hsup
      have hraise := layout_loop_first_raises g.x n0.w
        (g.y + SNAP_AREA_HEIGHT + V_SPACING) (g.y + SNAP_AREA_HEIGHT + V_SPACING)
        n0 rest _ hsome hsup1
      have hlay := layout_eq_of_live_err hg he hs hraise rfl
      rw [hlay]
      refine ⟨rfl, ?_⟩
      show (getNodeById (set_pos (updateNode (updateNode s gid fun n => { n with w := n0.w })
          n0.nid fun m => { m with w := n0.w - H_MARGIN * 2 }) n0.nid (g.x + H_MARGIN)
          (g.y + SNAP_AREA_HEIGHT + V_SPACING)).1 gid).map GNode.h = some g.h
      rw [set_pos_fst, getNodeById_h_updateNode_pos, getNodeById_h_updateNode_w,
        getNodeById_h_updateNode_w, hg]
      rfl


/-- Witness for the amended C9 at a concrete graph (the stale grid of
`c9_state`). -/
theorem c9_amended_witness :
    (((⟨1, NodeKind.grid, 0, 0, 220, 50, 60, [99], false⟩ : GNode).snapIds = []) →
      (getNodeById (layout_snapped_nodes c9_state 1).1 1).map GNode.h = some MIN_HEIGHT ∧
      (layout_snapped_nodes c9_state 1).2 = none) ∧
    (¬ (⟨1, NodeKind.grid, 0, 0, 220, 50, 60, [99], false⟩ : GNode).snapIds = [] →
      live_members c9_state (⟨1, NodeKind.grid, 0, 0, 220, 50, 60, [99], false⟩ : GNode).snapIds = [] →
      (getNodeById (layout_snapped_nodes c9_state 1).1 1).map GNode.snapIds = some [] ∧
      (getNodeById (layout_snapped_nodes c9_state 1).1 1).map GNode.h
        = some ((⟨1, NodeKind.grid, 0, 0, 220, 50, 60, [99], false⟩ : GNode).h) ∧
      (layout_snapped_nodes c9_state 1).2 = none) ∧
    (¬ live_members c9_state (⟨1, NodeKind.grid, 0, 0, 220, 50, 60, [99], false⟩ : GNode).snapIds = [] →
      (layout_snapped_nodes c9_state 1).2 = some Err.attributeError ∧
      (getNodeById (layout_snapped_nodes c9_state 1).1 1).map GNode.h
        = some ((⟨1, NodeKind.grid, 0, 0, 220, 50, 60, [99], false⟩ : GNode).h)) :=
  c9_amended_height_cases c9_state 1 ⟨1, NodeKind.grid, 0, 0, 220, 50, 60, [99], false⟩
    rfl (by unfold noSuppression c9_state; decide)

/-! ### Claims C6 and C7 — ownership invariants -/

/-- Exclusive ownership: no node id appears in two distinct containers'
member lists (the containers taken in graph enumeration order). -/
def ExclusiveOwnership (s : GraphState) : Prop :=
  (grids_of s).Pairwise fun a b => ∀ j ∈ a.snapIds, j ∉ b.snapIds

/-- No-nesting: no container's member list contains the id of any
container (its own id included). -/
def NoNesting (s : GraphState) : Prop :=
  ∀ g ∈ s.nodes, g.kind = NodeKind.grid → ∀ c ∈ s.nodes, c.kind = NodeKind.grid →
    c.nid ∉ g.snapIds

theorem exclusive_map {s : GraphState} {φ : GNode → GNode}
    (hkind : ∀ n, (φ n).kind = n.kind) (hsub : ∀ n, (φ n).snapIds ⊆ n.snapIds)
    (h : ExclusiveOwnership s) : ExclusiveOwnership ⟨s.nodes.map φ⟩ := by
  unfold ExclusiveOwnership at h ⊢
  rw [grids_of_map hkind, List.pairwise_map]
  exact h.imp fun hab j hj hjb => hab j (hsub _ hj) (hsub _ hjb)

theorem noNesting_map {s : GraphState} {φ : GNode → GNode}
    (hkind : ∀ n, (φ n).kind = n.kind) (hnid : ∀ n, (φ n).nid = n.nid)
    (hsub : ∀ n, (φ n).snapIds ⊆ n.snapIds) (h : NoNesting s) :
    NoNesting ⟨s.nodes.map φ⟩ := by
  intro g hg hgk c hc hck hmem
  rw [List.mem_map] at hg hc
  obtain ⟨g0, hg0, rfl⟩ := hg
  obtain ⟨c0, hc0, rfl⟩ := hc
  rw [hkind g0] at hgk
  rw [hkind c0] at hck
  rw [hnid c0] at hmem
  exact h g0 hg0 hgk c0 hc0 hck (hsub g0 hmem)

theorem layoutMap_sub {φ : GNode → GNode} (hφ : LayoutMap φ) :
    ∀ n, (φ n).snapIds ⊆ n.snapIds := by
  intro n
  rcases (hφ n).2.2.2.2 with h | h
  · rw [h]
    exact List.Subset.refl _
  · rw [h]
    exact List.nil_subset _

theorem exclusive_layout {s : GraphState} (gid : Nat) (h : ExclusiveOwnership s) :
    ExclusiveOwnership (layout_snapped_nodes s gid).1 := by
  obtain ⟨φ, hφ, hmap⟩ := layout_structure s gid
  have hstate : (layout_snapped_nodes s gid).1 = ⟨s.nodes.map φ⟩ := by rw [← hmap]
  rw [hstate]
  exact exclusive_map (fun n => (hφ n).2.1) (layoutMap_sub hφ) h

theorem noNesting_layout {s : GraphState} (gid : Nat) (h : NoNesting s) :
    NoNesting (layout_snapped_nodes s gid).1 := by
  obtain ⟨φ, hφ, hmap⟩ := layout_structure s gid
  have hstate : (layout_snapped_nodes s gid).1 = ⟨s.nodes.map φ⟩ := by rw [← hmap]
  rw [hstate]
  exact noNesting_map (fun n => (hφ n).2.1) (fun n => (hφ n).1) (layoutMap_sub hφ) h

theorem wfIds_layout {s : GraphState} (gid : Nat) (h : wfIds s) :
    wfIds (layout_snapped_nodes s gid).1 := by
  obtain ⟨φ, hφ, hmap⟩ := layout_structure s gid
  have hstate : (layout_snapped_nodes s gid).1 = ⟨s.nodes.map φ⟩ := by rw [← hmap]
  rw [hstate]
  exact wfIds_map (fun n => (hφ n).1) h

theorem noSuppression_layout {s : GraphState} (gid : Nat) (h : noSuppression s) :
    noSuppression (layout_snapped_nodes s gid).1 := by
  obtain ⟨φ, hφ, hmap⟩ := layout_structure s gid
  have hstate : (layout_snapped_nodes s gid).1 = ⟨s.nodes.map φ⟩ := by rw [← hmap]
  rw [hstate]
  exact noSuppression_map (fun n => (hφ n).2.2.2.1) h

theorem current_owner_none {s : GraphState} {i : Nat}
    (h : current_owner s i = none) : ∀ dn ∈ grids_of s, i ∉ dn.snapIds := by
  intro dn hdn
  unfold current_owner at h
  have hfail := List.find?_eq_none.mp h dn hdn
  simpa using hfail

theorem current_owner_some {s : GraphState} {i : Nat} {cp : GNode}
    (h : current_owner s i = some cp) : cp ∈ grids_of s ∧ i ∈ cp.snapIds := by
  refine ⟨List.mem_of_find?_eq_some h, ?_⟩
  have hp := List.find?_some h
  simpa using hp

theorem target_owner_some_mem {s : GraphState} {m tp : GNode}
    (h : target_owner s m = some tp) : tp ∈ grids_of s :=
  List.mem_of_find?_eq_some h

theorem pairwise_nid_of_wf {s : GraphState} (hwf : wfIds s) :
    (grids_of s).Pairwise fun a b => a.nid ≠ b.nid := by
  have h2 : (s.nodes.map GNode.nid).Pairwise (fun a b => a ≠ b) := hwf
  have hpn : s.nodes.Pairwise fun a b => a.nid ≠ b.nid := List.pairwise_map.mp h2
  exact hpn.sublist (List.filter_sublist s.nodes)

theorem exclusive_unique {s : GraphState} (hex : ExclusiveOwnership s) {cp : GNode}
    {i : Nat} (hcp : cp ∈ grids_of s) (hicp : i ∈ cp.snapIds) :
    ∀ b ∈ grids_of s, i ∈ b.snapIds → b = cp := by
  have hS : (grids_of s).Pairwise fun a b =>
      (i ∈ a.snapIds → i ∉ b.snapIds) ∧ (i ∈ b.snapIds → i ∉ a.snapIds) := by
    refine hex.imp fun hab => ?_
    exact ⟨fun ha => hab i ha, fun hb ha => absurd hb (hab i ha)⟩
  have hsym : Symmetric fun a b : GNode =>
      (i ∈ a.snapIds → i ∉ b.snapIds) ∧ (i ∈ b.snapIds → i ∉ a.snapIds) := by
    intro a b hab
    exact ⟨hab.2, hab.1⟩
  intro b hb hib
  by_contra hne
  have hs2 := List.Pairwise.forall hsym hS hcp hb (fun he => hne he.symm)
  exact hs2.1 hicp hib

theorem live_members_ne_nil {s : GraphState} {ids : List Nat} {i : Nat} {m : GNode}
    (hi : i ∈ ids) (hm : getNodeById s i = some m) (hk : m.kind = NodeKind.tool) :
    ¬ live_members s ids = [] := by
  intro hnil
  have hmem : m ∈ live_members s ids := by
    unfold live_members
    rw [List.mem_filterMap]
    refine ⟨i, hi, ?_⟩
    show (match getNodeById s i with
      | none => none
      | some n =>
        match n.kind with
        | NodeKind.tool => some n
        | _ => none) = some m
    rw [hm]
    show (match m.kind with
      | NodeKind.tool => some m
      | _ => none) = some m
    rw [hk]
  rw [hnil] at hmem
  exact List.not_mem_nil m hmem


theorem wfIds_update {s : GraphState} (i : Nat) (f : GNode → GNode)
    (hid : ∀ n, (f n).nid = n.nid) (h : wfIds s) : wfIds (updateNode s i f) :=
  wfIds_map (fun n => by
    by_cases hb : (n.nid == i) = true
    · rw [if_pos hb]
      exact hid n
    · rw [if_neg hb]) h

theorem noSuppression_update {s : GraphState} (i : Nat) (f : GNode → GNode)
    (hk : ∀ n, (f n).kdmSnapping = n.kdmSnapping) (h : noSuppression s) :
    noSuppression (updateNode s i f) :=
  noSuppression_map (fun n => by
    by_cases hb : (n.nid == i) = true
    · rw [if_pos hb]
      exact hk n
    · rw [if_neg hb]) h

theorem exclusive_erase {s : GraphState} (cid i : Nat) (h : ExclusiveOwnership s) :
    ExclusiveOwnership (updateNode s cid fun n => { n with snapIds := n.snapIds.erase i }) :=
  exclusive_map
    (fun n => by
      by_cases hb : (n.nid == cid) = true
      · rw [if_pos hb]
      · rw [if_neg hb])
    (fun n => by
      by_cases hb : (n.nid == cid) = true
      · rw [if_pos hb]
        exact List.erase_subset i n.snapIds
      · rw [if_neg hb]
        exact List.Subset.refl _) h

theorem noNesting_erase {s : GraphState} (cid i : Nat) (h : NoNesting s) :
    NoNesting (updateNode s cid fun n => { n with snapIds := n.snapIds.erase i }) :=
  noNesting_map
    (fun n => by
      by_cases hb : (n.nid == cid) = true
      · rw [if_pos hb]
      · rw [if_neg hb])
    (fun n => by
      by_cases hb : (n.nid == cid) = true
      · rw [if_pos hb]
      · rw [if_neg hb])
    (fun n => by
      by_cases hb : (n.nid == cid) = true
      · rw [if_pos hb]
        exact List.erase_subset i n.snapIds
      · rw [if_neg hb]
        exact List.Subset.refl _) h

theorem append_fn_kind (tpid i : Nat) : ∀ n : GNode,
    ((fun n : GNode => if n.nid == tpid then
      (if n.snapIds.contains i then n else { n with snapIds := n.snapIds ++ [i] })
      else n) n).kind = n.kind := by
  intro n
  dsimp only
  by_cases hb : (n.nid == tpid) = true
  · rw [if_pos hb]
    by_cases hc : (n.snapIds.contains i) = true
    · rw [if_pos hc]
    · rw [if_neg hc]
  · rw [if_neg hb]

theorem append_fn_nid (tpid i : Nat) : ∀ n : GNode,
    ((fun n : GNode => if n.nid == tpid then
      (if n.snapIds.contains i then n else { n with snapIds := n.snapIds ++ [i] })
      else n) n).nid = n.nid := by
  intro n
  dsimp only
  by_cases hb : (n.nid == tpid) = true
  · rw [if_pos hb]
    by_cases hc : (n.snapIds.contains i) = true
    · rw [if_pos hc]
    · rw [if_neg hc]
  · rw [if_neg hb]

theorem append_fn_ids_sub (tpid i : Nat) : ∀ n : GNode,
    ((fun n : GNode => if n.nid == tpid then
      (if n.snapIds.contains i then n else { n with snapIds := n.snapIds ++ [i] })
      else n) n).snapIds ⊆ n.snapIds ++ [i] := by
  intro n
  dsimp only
  by_cases hb : (n.nid == tpid) = true
  · rw [if_pos hb]
    by_cases hc : (n.snapIds.contains i) = true
    · rw [if_pos hc]
      exact List.subset_append_left _ _
    · rw [if_neg hc]
      exact List.Subset.refl _
  · rw [if_neg hb]
    exact List.subset_append_left _ _

theorem wfIds_append {s : GraphState} (tpid i : Nat) (h : wfIds s) :
    wfIds (updateNode s tpid fun n =>
      if n.snapIds.contains i then n else { n with snapIds := n.snapIds ++ [i] }) :=
  wfIds_update tpid _ (fun n => by
    by_cases hc : (n.snapIds.contains i) = true
    · rw [if_pos hc]
    · rw [if_neg hc]) h

theorem exclusive_append {s : GraphState} {tp : GNode} {i : Nat}
    (hwf : wfIds s) (hex : ExclusiveOwnership s)
    (hno : ∀ dn ∈ grids_of s, i ∉ dn.snapIds) :
    ExclusiveOwnership (updateNode s tp.nid fun n =>
      if n.snapIds.contains i then n else { n with snapIds := n.snapIds ++ [i] }) := by
  show ExclusiveOwnership ⟨s.nodes.map fun n => if n.nid == tp.nid then
    (if n.snapIds.contains i then n else { n with snapIds := n.snapIds ++ [i] }) else n⟩
  unfold ExclusiveOwnership
  rw [grids_of_map (append_fn_kind tp.nid i), List.pairwise_map]
  have hnid := pairwise_nid_of_wf hwf
  have hcomb := hex.and hnid
  refine List.Pairwise.imp_of_mem ?_ hcomb
  intro a b ha hb hab
  obtain ⟨hdis, hne⟩ := hab
  intro j hja hjb
  have hsa := append_fn_ids_sub tp.nid i a hja
  have hsb := append_fn_ids_sub tp.nid i b hjb
  rcases List.mem_append.mp hsa with hja2 | hja2
  · rcases List.mem_append.mp hsb with hjb2 | hjb2
    · exact hdis j hja2 hjb2
    · have hji : j = i := by simpa using hjb2
      subst hji
      -- j = i is in b's new list, so b must be the matched node; but i ∈ a old: contradiction with hno a
      exact hno a ha hja2
  · have hji : j = i := by simpa using hja2
    subst hji
    -- i came from a's appended list, so a is matched; i cannot be in b's result list:
    rcases List.mem_append.mp hsb with hjb2 | hjb2
    · exact hno b hb hjb2
    · -- both a and b got i appended: both matched tp.nid, contradicting distinct nids
      by_cases hba : (a.nid == tp.nid) = true
      · by_cases hbb : (b.nid == tp.nid) = true
        · have h1 : a.nid = tp.nid := by simpa using hba
          have h2 : b.nid = tp.nid := by simpa using hbb
          rw [h2] at hne
          exact hne h1
        · rw [if_neg hbb] at hjb
          exact hno b hb hjb
      · rw [if_neg hba] at hja
        exact hno a ha hja

theorem noNesting_append {s : GraphState} {tp : GNode} {i : Nat}
    (hwf : wfIds s) (hnn : NoNesting s)
    {m : GNode} (hm : m ∈ s.nodes) (hmn : m.nid = i) (hmk : m.kind = NodeKind.tool) :
    NoNesting (updateNode s tp.nid fun n =>
      if n.snapIds.contains i then n else { n with snapIds := n.snapIds ++ [i] }) := by
  intro g hg hgk c hc hck hmem
  rw [updateNode_nodes, List.mem_map] at hg hc
  obtain ⟨g0, hg0, rfl⟩ := hg
  obtain ⟨c0, hc0, rfl⟩ := hc
  rw [append_fn_kind tp.nid i g0] at hgk
  rw [append_fn_kind tp.nid i c0] at hck
  rw [append_fn_nid tp.nid i c0] at hmem
  have hsub := append_fn_ids_sub tp.nid i g0 hmem
  rcases List.mem_append.mp hsub with h2 | h2
  · exact hnn g0 hg0 hgk c0 hc0 hck h2
  · have hci : c0.nid = i := by simpa using h2
    have hceq : c0 = m := List.inj_on_of_nodup_map hwf hc0 hm (by rw [hci, hmn])
    rw [hceq, hmk] at hck
    exact NodeKind.noConfusion hck

theorem updateNode_append_noop {s : GraphState} {tp : GNode} {i : Nat}
    (hwf : wfIds s) (htp : tp ∈ s.nodes) (hcontains : i ∈ tp.snapIds) :
    updateNode s tp.nid (fun n =>
      if n.snapIds.contains i then n else { n with snapIds := n.snapIds ++ [i] }) = s := by
  obtain ⟨l⟩ := s
  unfold updateNode
  congr 1
  have hpt : ∀ n ∈ l, (if n.nid == tp.nid then
      (if n.snapIds.contains i then n else { n with snapIds := n.snapIds ++ [i] })
      else n) = n := by
    intro n hn
    by_cases hb : (n.nid == tp.nid) = true
    · rw [if_pos hb]
      have hnid : n.nid = tp.nid := by simpa using hb
      have heq : n = tp := List.inj_on_of_nodup_map hwf hn htp hnid
      rw [if_pos (by rw [heq]; simpa using hcontains)]
    · rw [if_neg hb]
  calc (List.map (fun n => if n.nid == tp.nid then
          (if n.snapIds.contains i then n else { n with snapIds := n.snapIds ++ [i] })
          else n) l)
      = l.map id := List.map_congr_left hpt
    _ = l := List.map_id l


/-- Any node entry survives an erase-update followed by a layout pass with
its id and kind intact. -/
theorem entry_transport {s : GraphState} {m : GNode} (hm : m ∈ s.nodes)
    (cid i gid : Nat) :
    ∃ m2 ∈ ((layout_snapped_nodes
        (updateNode s cid fun n => { n with snapIds := n.snapIds.erase i }) gid).1).nodes,
      m2.nid = m.nid ∧ m2.kind = m.kind := by
  obtain ⟨ψ, hψ, hmap⟩ := layout_structure
    (updateNode s cid fun n => { n with snapIds := n.snapIds.erase i }) gid
  refine ⟨ψ ((fun n => if n.nid == cid then { n with snapIds := n.snapIds.erase i } else n) m),
    ?_, ?_, ?_⟩
  · rw [hmap]
    exact List.mem_map_of_mem ψ (List.mem_map_of_mem _ hm)
  · rw [(hψ _).1]
    dsimp only
    by_cases hb : (m.nid == cid) = true
    · rw [if_pos hb]
    · rw [if_neg hb]
  · rw [(hψ _).2.1]
    dsimp only
    by_cases hb : (m.nid == cid) = true
    · rw [if_pos hb]
    · rw [if_neg hb]

/-- C7: from any well-formed no-nesting state, every `handle_node_moved`
step and every layout pass preserves no-nesting (no container id ever
enters a member list, since only the id of a moved `ToolBaseNode`
non-container node is ever appended), and the layout pass never treats a
container as a member: every live member it lays out is of tool kind. -/
theorem c7_no_nesting_invariant (s : GraphState) (hwf : wfIds s) (hnn : NoNesting s) :
    (∀ i, NoNesting (handle_node_moved s i).1) ∧
    (∀ gid, NoNesting (layout_snapped_nodes s gid).1) ∧
    (∀ gid g, getNodeById s gid = some g →
      ∀ n ∈ live_members s g.snapIds, n.kind = NodeKind.tool) := by
  refine ⟨?_, fun gid => noNesting_layout gid hnn,
    fun gid g hg n hn => (live_members_spec hn).2.2⟩
  intro i
  cases hq : getNodeById s i with
  | none =>
    rw [handle_eq_of_none hq]
    exact hnn
  | some moved =>
    by_cases hgr : grids_of s = []
    · rw [handle_eq_of_no_grids hq hgr]
      exact hnn
    · have hmem : moved ∈ s.nodes := getNodeById_mem hq
      have hmid : moved.nid = i := getNodeById_nid hq
      cases hk : moved.kind with
      | grid =>
        rw [handle_eq_of_grid hq hgr hk]
        exact noNesting_layout i hnn
      | plain =>
        rw [handle_eq_of_plain hq hgr hk]
        exact hnn
      | tool =>
        cases htgt : target_owner s moved with
        | none =>
          cases hcur : current_owner s i with
          | none =>
            rw [handle_eq_tool_none_none hq hgr hk htgt hcur]
            exact hnn
          | some cp =>
            rw [handle_eq_tool_none_some hq hgr hk htgt hcur]
            exact noNesting_layout cp.nid (noNesting_erase cp.nid i hnn)
        | some tp =>
          cases hcur : current_owner s i with
          | none =>
            rw [handle_eq_tool_some_cur_none hq hgr hk htgt hcur]
            exact noNesting_layout tp.nid (noNesting_append hwf hnn hmem hmid hk)
          | some cp =>
            by_cases hnid : cp.nid = tp.nid
            · rw [handle_eq_tool_some_cur_same hq hgr hk htgt hcur hnid]
              exact noNesting_layout tp.nid (noNesting_append hwf hnn hmem hmid hk)
            · rw [handle_eq_tool_some_cur_diff hq hgr hk htgt hcur hnid]
              cases herr : (layout_snapped_nodes
                  (updateNode s cp.nid fun n => { n with snapIds := n.snapIds.erase i })
                  cp.nid).2 with
              | some e =>
                simp only [herr]
                exact noNesting_layout cp.nid (noNesting_erase cp.nid i hnn)
              | none =>
                simp only [herr]
                have hwf1 : wfIds (updateNode s cp.nid fun n =>
                    { n with snapIds := n.snapIds.erase i }) :=
                  wfIds_update cp.nid _ (fun n => rfl) hwf
                have hwf2 := wfIds_layout cp.nid hwf1
                have hnn2 := noNesting_layout cp.nid (noNesting_erase cp.nid i hnn)
                obtain ⟨m2, hm2mem, hm2nid, hm2kind⟩ := entry_transport hmem cp.nid i cp.nid
                rw [hmid] at hm2nid
                rw [hk] at hm2kind
                exact noNesting_layout tp.nid
                  (noNesting_append hwf2 hnn2 hm2mem hm2nid hm2kind)

/-- C6 amended: from any well-formed state (distinct node ids, suppression
flags unset as they always are) in which every node id appears in at most
one container's member list, every `handle_node_moved` step preserves that
exclusiveness — but when a move into a new container requires re-laying
out the previous owner and that pass raises, the step escapes after the
removal and before the addition, so the id can end up in no list. -/
theorem c6_amended_exclusive_ownership (s : GraphState) (i : Nat) (hwf : wfIds s)
    (hsup : noSuppression s) (hex : ExclusiveOwnership s) :
    ExclusiveOwnership (handle_node_moved s i).1 := by
  cases hq : getNodeById s i with
  | none =>
    rw [handle_eq_of_none hq]
    exact hex
  | some moved =>
    by_cases hgr : grids_of s = []
    · rw [handle_eq_of_no_grids hq hgr]
      exact hex
    · have hmem : moved ∈ s.nodes := getNodeById_mem hq
      have hmid : moved.nid = i := getNodeById_nid hq
      cases hk : moved.kind with
      | grid =>
        rw [handle_eq_of_grid hq hgr hk]
        exact exclusive_layout i hex
      | plain =>
        rw [handle_eq_of_plain hq hgr hk]
        exact hex
      | tool =>
        cases htgt : target_owner s moved with
        | none =>
          cases hcur : current_owner s i with
          | none =>
            rw [handle_eq_tool_none_none hq hgr hk htgt hcur]
            exact hex
          | some cp =>
            rw [handle_eq_tool_none_some hq hgr hk htgt hcur]
            exact exclusive_layout cp.nid (exclusive_erase cp.nid i hex)
        | some tp =>
          have htpg := target_owner_some_mem htgt
          have htpnodes : tp ∈ s.nodes := (mem_grids_of.mp htpg).1
          cases hcur : current_owner s i with
          | none =>
            rw [handle_eq_tool_some_cur_none hq hgr hk htgt hcur]
            exact exclusive_layout tp.nid (exclusive_append hwf hex (current_owner_none hcur))
          | some cp =>
            obtain ⟨hcpg, hicp⟩ := current_owner_some hcur
            have hcpnodes : cp ∈ s.nodes := (mem_grids_of.mp hcpg).1
            by_cases hnid : cp.nid = tp.nid
            · rw [handle_eq_tool_some_cur_same hq hgr hk htgt hcur hnid]
              have hcptp : cp = tp := List.inj_on_of_nodup_map hwf hcpnodes htpnodes hnid
              rw [updateNode_append_noop hwf htpnodes (hcptp ▸ hicp)]
              exact exclusive_layout tp.nid hex
            · rw [handle_eq_tool_some_cur_diff hq hgr hk htgt hcur hnid]
              cases herr : (layout_snapped_nodes
                  (updateNode s cp.nid fun n => { n with snapIds := n.snapIds.erase i })
                  cp.nid).2 with
              | some e =>
                simp only [herr]
                exact exclusive_layout cp.nid (exclusive_erase cp.nid i hex)
              | none =>
                simp only [herr]
                have hwf1 : wfIds (updateNode s cp.nid fun n =>
                    { n with snapIds := n.snapIds.erase i }) :=
                  wfIds_update cp.nid _ (fun n => rfl) hwf
                have hsup1 : noSuppression (updateNode s cp.nid fun n =>
                    { n with snapIds := n.snapIds.erase i }) :=
                  noSuppression_update cp.nid _ (fun n => rfl) hsup
                have hex1 := exclusive_erase cp.nid i hex
                have hwf2 := wfIds_layout cp.nid hwf1
                have hex2 := exclusive_layout cp.nid hex1
                -- the erased current owner as it appears in the updated state
                have hcpE : (fun n => if n.nid == cp.nid then
                    { n with snapIds := n.snapIds.erase i } else n) cp
                    = { cp with snapIds := cp.snapIds.erase i } := by
                  dsimp only
                  rw [if_pos (by simp)]
                have hcpEmem : ({ cp with snapIds := cp.snapIds.erase i } : GNode) ∈
                    (updateNode s cp.nid fun n =>
                      { n with snapIds := n.snapIds.erase i }).nodes := by
                  rw [updateNode_nodes]
                  rw [← hcpE]
                  exact List.mem_map_of_mem _ hcpnodes
                have hlook1 : getNodeById (updateNode s cp.nid fun n =>
                    { n with snapIds := n.snapIds.erase i }) cp.nid
                    = some { cp with snapIds := cp.snapIds.erase i } :=
                  getNodeById_self hwf1 hcpEmem
                have hoknolive := layout_ok_no_live hsup1 hlook1 herr
                -- the moved tool node as it appears in the updated state
                have hmE : (fun n => if n.nid == cp.nid then
                    { n with snapIds := n.snapIds.erase i } else n) moved ∈
                    (updateNode s cp.nid fun n =>
                      { n with snapIds := n.snapIds.erase i }).nodes := by
                  rw [updateNode_nodes]
                  exact List.mem_map_of_mem _ hmem
                have hmEnid : ((fun n => if n.nid == cp.nid then
                    { n with snapIds := n.snapIds.erase i } else n) moved).nid = i := by
                  dsimp only
                  by_cases hb : (moved.nid == cp.nid) = true
                  · rw [if_pos hb]
                    exact hmid
                  · rw [if_neg hb]
                    exact hmid
                have hmEkind : ((fun n => if n.nid == cp.nid then
                    { n with snapIds := n.snapIds.erase i } else n) moved).kind
                    = NodeKind.tool := by
                  dsimp only
                  by_cases hb : (moved.nid == cp.nid) = true
                  · rw [if_pos hb]
                    exact hk
                  · rw [if_neg hb]
                    exact hk
                have hlookm : getNodeById (updateNode s cp.nid fun n =>
                    { n with snapIds := n.snapIds.erase i }) i
                    = some ((fun n => if n.nid == cp.nid then
                      { n with snapIds := n.snapIds.erase i } else n) moved) := by
                  have := getNodeById_self hwf1 hmE
                  rw [hmEnid] at this
                  exact this
                -- i no longer appears in the erased owner's list
                have hkey : i ∉ ({ cp with snapIds := cp.snapIds.erase i } : GNode).snapIds := by
                  rcases hoknolive with hnil | hlive
                  · rw [hnil]
                    exact List.not_mem_nil i
                  · intro hi
                    exact live_members_ne_nil hi hlookm hmEkind hlive
                -- after re-laying out the erased owner, no grid owns i
                have hno2 : ∀ dn ∈ grids_of (layout_snapped_nodes
                    (updateNode s cp.nid fun n => { n with snapIds := n.snapIds.erase i })
                    cp.nid).1, i ∉ dn.snapIds := by
                  obtain ⟨ψ, hψ, hmap2⟩ := layout_structure
                    (updateNode s cp.nid fun n => { n with snapIds := n.snapIds.erase i })
                    cp.nid
                  intro dn hdn hidn
                  obtain ⟨hdnmem, hdnkind⟩ := mem_grids_of.mp hdn
                  rw [hmap2] at hdnmem
                  rw [List.mem_map] at hdnmem
                  obtain ⟨d1, hd1mem, rfl⟩ := hdnmem
                  rcases (hψ d1).2.2.2.2 with hsame | hnil2
                  · rw [hsame] at hidn
                    rw [updateNode_nodes, List.mem_map] at hd1mem
                    obtain ⟨d0, hd0mem, rfl⟩ := hd1mem
                    by_cases hb : (d0.nid == cp.nid) = true
                    · have hd0cp : d0 = cp := List.inj_on_of_nodup_map hwf hd0mem hcpnodes
                        (by simpa using hb)
                      rw [if_pos hb] at hidn
                      rw [hd0cp] at hidn
                      exact hkey hidn
                    · rw [if_neg hb] at hidn
                      have hd0kind : d0.kind = NodeKind.grid := by
                        have hk2 := (hψ ((fun n => if n.nid == cp.nid then
                          { n with snapIds := n.snapIds.erase i } else n) d0)).2.1
                        rw [hk2] at hdnkind
                        dsimp only at hdnkind
                        rw [if_neg hb] at hdnkind
                        exact hdnkind
                      have hd0g : d0 ∈ grids_of s := mem_grids_of.mpr ⟨hd0mem, hd0kind⟩
                      have hd0cp := exclusive_unique hex hcpg hicp d0 hd0g hidn
                      rw [hd0cp] at hb
                      exact hb (by simp)
                  · rw [hnil2] at hidn
                    exact List.not_mem_nil i hidn
                exact exclusive_layout tp.nid (exclusive_append hwf2 hex2 hno2)


/-- Two containers A (id 1, owning nodes 2 and 3) and B (id 4, empty);
node 2 has been dragged into B's snap area while node 3 stays in A. -/
def c6cx_state : GraphState :=
  ⟨[⟨1, NodeKind.grid, 0, 0, 220, 200, 60, [2, 3], false⟩,
    ⟨2, NodeKind.tool, 1010, 5, 200, 60, 60, [], false⟩,
    ⟨3, NodeKind.tool, 10, 60, 200, 60, 60, [], false⟩,
    ⟨4, NodeKind.grid, 1000, 0, 220, 120, 60, [], false⟩]⟩

/-- C6 counterexample: moving node 2 from container 1 into container 4's
snap region removes 2 from container 1's list, but the step does NOT add
it to container 4's list in the same step: re-laying out container 1
raises (its remaining member 3 is repositioned and `set_pos` evaluates the
missing `on_node_moved`), so the call escapes between the removal and the
addition, leaving id 2 in no member list. -/
theorem c6_counterexample_removed_but_not_added :
    (getNodeById (handle_node_moved c6cx_state 2).1 1).map GNode.snapIds = some [3] ∧
    (getNodeById (handle_node_moved c6cx_state 2).1 4).map GNode.snapIds = some [] ∧
    (handle_node_moved c6cx_state 2).2 = some Err.attributeError := by
  have hm : getNodeById c6cx_state 2
      = some ⟨2, NodeKind.tool, 1010, 5, 200, 60, 60, [], false⟩ := rfl
  have hgr : ¬ grids_of c6cx_state = [] := by decide
  have htgt : target_owner c6cx_state ⟨2, NodeKind.tool, 1010, 5, 200, 60, 60, [], false⟩
      = some ⟨4, NodeKind.grid, 1000, 0, 220, 120, 60, [], false⟩ := by
    norm_num [target_owner, grids_of, List.find?, List.filter, is_in_snap_area,
      SNAP_AREA_HEIGHT, c6cx_state]
  have hcur : current_owner c6cx_state 2
      = some ⟨1, NodeKind.grid, 0, 0, 220, 200, 60, [2, 3], false⟩ := by decide
  have hndl := handle_eq_tool_some_cur_diff hm hgr rfl htgt hcur (by decide)
  rw [hndl]
  norm_num +decide [c6cx_state, layout_snapped_nodes, layout_loop, set_pos, updateNode,
    getNodeById, live_members, sortByY, insertByY, List.find?, List.filterMap, List.foldl,
    MIN_HEIGHT, SNAP_AREA_HEIGHT, V_SPACING, H_MARGIN]

/-- Witness for the amended C6 at a concrete graph. -/
theorem c6_amended_witness : ExclusiveOwnership (handle_node_moved c6cx_state 2).1 :=
  c6_amended_exclusive_ownership c6cx_state 2
    (by unfold wfIds c6cx_state; decide)
    (by unfold noSuppression c6cx_state; decide)
    (by unfold ExclusiveOwnership grids_of c6cx_state; decide)

/-- Witness for C7 at a concrete graph. -/
theorem c7_no_nesting_witness :
    (∀ i, NoNesting (handle_node_moved c10_state i).1) ∧
    (∀ gid, NoNesting (layout_snapped_nodes c10_state gid).1) ∧
    (∀ gid g, getNodeById c10_state gid = some g →
      ∀ n ∈ live_members c10_state g.snapIds, n.kind = NodeKind.tool) :=
  c7_no_nesting_invariant c10_state
    (by unfold wfIds c10_state; decide)
    (by unfold NoNesting c10_state; decide)


end SnapGrid
